import Mathlib

set_option maxRecDepth 100000

/-!
Verification of the 1BRC (one billion row challenge) ingest-and-aggregate core.

This file gives a shallow embedding of the Rust sources of the phips-1brc
crate and proves properties of that embedding.  Byte slices are modelled as
lists of natural numbers (one entry per byte), machine integers as Int/Nat
with explicit reductions modulo powers of two at the points where the source
performs fixed-width arithmetic that can overflow in its input regime, and
panicking operations (assert failures, unwrap on None, out-of-bounds slice
indexing) as Option results with none meaning an abort.

Embedded components and their sources:
  - AggregatedData (min, max, sum, sample_count, name) with add_datapoint,
    merge and the avg denominator       from src/aggregated_data.rs
  - fast_f32_parse_encoded              from src/lib.rs
  - ChunkIter (new, next)               from src/chunk_iter.rs
  - process_file_chunk hot loop         from src/lib.rs
  - init_lookup_structure and the reduce step of finalize   from src/lib.rs

The minimal perfect hash (crate ptr_hash) is an external dependency, not part
of this repository; functions are parametrised over the hash function, and a
concrete model of it is supplied where concrete evaluation is needed.
-/

namespace OneBrc

/-- Newline byte. -/
def NL : Nat := 10

/-- Semicolon byte. -/
def SEMI : Nat := 59

/-- From src/lib.rs data_set_properties: the amount of distinct weather
stations in the 1BRC dataset. -/
def STATIONS_IN_DATASET : Nat := 413

/-- From src/lib.rs data_set_properties: minimum station name length. -/
def MIN_STATION_LEN : Nat := 3

/-- From src/lib.rs data_set_properties: minimum measurement string length. -/
def MIN_MEASUREMENT_LEN : Nat := 3

/-- Model of memchr::memchr: index of the first occurrence of a byte in a
byte slice, or none. -/
def memchr (c : Nat) : List Nat → Option Nat
  | [] => none
  | b :: bs => if b = c then some 0 else (memchr c bs).map (fun i => i + 1)

/-- Reduction of an unbounded integer to the signed 16-bit value the i16
arithmetic of the source produces (two's complement wrap-around). -/
def wrap16 (x : Int) : Int := (x + 32768) % 65536 - 32768

/-- The aggregated per-station data, from src/aggregated_data.rs.  min and
max are i16 values, sum is an i64, sample_count a u32 in the source; within
the input regime of the program (at most 2^32 - 1 rows, scaled temperatures
in -999..=999) none of the add_datapoint/merge arithmetic can overflow, so
these fields are modelled as Int/Nat.  The one u32 computation that does
overflow in that regime, the sample_count * 10 in avg, is modelled with its
explicit mod 2^32 reduction (avgDenom below). -/
@[ext]
structure AggregatedData where
  min : Int
  max : Int
  sum : Int
  sample_count : Nat
  name : List Nat
deriving DecidableEq, Repr

/-- Default::default() for AggregatedData: min = i16::MAX, max = i16::MIN,
sum = 0, sample_count = 0, empty name. -/
def defaultAgg : AggregatedData :=
  { min := 32767, max := -32768, sum := 0, sample_count := 0, name := [] }

namespace AggregatedData

/-- AggregatedData::empty: no data point received so far. -/
def empty (a : AggregatedData) : Bool := a.max = -32768

/-- AggregatedData::add_datapoint. -/
def add_datapoint (a : AggregatedData) (measurement : Int) : AggregatedData :=
  let a' :=
    if a.empty then
      { a with min := measurement, max := measurement }
    else
      if measurement < a.min then { a with min := measurement }
      else if measurement > a.max then { a with max := measurement }
      else a
  { a' with sum := a'.sum + measurement, sample_count := a'.sample_count + 1 }

/-- AggregatedData::merge.  max_by/min_by with partial_cmp on i16 never sees
an incomparable pair, so they are plain max/min. -/
def merge (a other : AggregatedData) : AggregatedData :=
  { a with
    max := Max.max a.max other.max
    min := Min.min a.min other.min
    sum := a.sum + other.sum
    sample_count := a.sample_count + other.sample_count }

/-- The denominator sample_count * 10 computed by AggregatedData::avg.  The
multiplication is performed on u32, hence the explicit reduction mod 2^32. -/
def avgDenom (a : AggregatedData) : Nat := (a.sample_count * 10) % 4294967296

end AggregatedData

/-- The numeric fields of an aggregate (min, max, sum, sample_count). -/
def statsOf (a : AggregatedData) : Int × Int × Int × Nat :=
  (a.min, a.max, a.sum, a.sample_count)

/-- Folding a list of datapoints into an aggregate with add_datapoint. -/
def addAll (a : AggregatedData) (ms : List Int) : AggregatedData :=
  ms.foldl AggregatedData.add_datapoint a

/-- fast_f32_parse_encoded from src/lib.rs.  Returns none exactly when the
input is empty (the source indexes bytes[0], which panics on an empty
slice); otherwise it is total, with the i16 arithmetic of the source
modelled by wrap16 and the wrapping u8 subtraction byte - b'0' modelled by
the explicit mod 256. -/
def fast_f32_parse_encoded (input : List Nat) : Option Int :=
  match input with
  | [] => none
  | b0 :: rest =>
    let negative := b0 = 45
    let bytes := if negative then rest else b0 :: rest
    let val := bytes.foldl
      (fun val byte =>
        if byte = 46 then val
        else wrap16 (val * 10 + (((byte + 208) % 256 : Nat) : Int)))
      0
    some (if negative then wrap16 (-val) else val)

/-- An ASCII digit byte. -/
def isDigit (b : Nat) : Bool := decide (48 ≤ b) && decide (b ≤ 57)

/-- The measurement grammar -?[0-9]\x7b1,2\x7d\.[0-9] on bytes
(45 is the minus sign, 46 the dot). -/
def measGrammar : List Nat → Bool
  | [a, b, c] => isDigit a && (b = 46 : Bool) && isDigit c
  | [a, b, c, d] =>
      ((a = 45 : Bool) && isDigit b && (c = 46 : Bool) && isDigit d) ||
      (isDigit a && isDigit b && (c = 46 : Bool) && isDigit d)
  | [a, b, c, d, e] =>
      (a = 45 : Bool) && isDigit b && isDigit c && (d = 46 : Bool) && isDigit e
  | _ => false

/-- The decimal value represented by a measurement string, multiplied by
ten, read off the digits as the specification describes the codec
(for example -15.7 maps to -157 and 6.6 to 66). -/
def specDecimalValue : List Nat → Int
  | [a, _, c] => ((a : Int) - 48) * 10 + ((c : Int) - 48)
  | [a, b, _, d] =>
      if a = 45 then -(((b : Int) - 48) * 10 + ((d : Int) - 48))
      else (((a : Int) - 48) * 10 + ((b : Int) - 48)) * 10 + ((d : Int) - 48)
  | [_, b, c, _, e] =>
      -((((b : Int) - 48) * 10 + ((c : Int) - 48)) * 10 + ((e : Int) - 48))
  | _ => 0

/-- ChunkIter from src/chunk_iter.rs. -/
structure ChunkIter where
  bytes_per_chunk : Nat
  file_bytes : List Nat
  consumed_bytes : Nat
deriving DecidableEq, Repr

/-- ChunkIter::new: bytes_per_chunk = len.div_ceil(chunk_count). -/
def ChunkIter.new (file_bytes : List Nat) (chunk_count : Nat) : ChunkIter :=
  { bytes_per_chunk := (file_bytes.length + chunk_count - 1) / chunk_count
    file_bytes := file_bytes
    consumed_bytes := 0 }

/-- Result of one ChunkIter::next call: done models a None return, panicked
models the panic of the internal memchr(..).unwrap(), item carries the
yielded chunk together with the advanced iterator. -/
inductive NextResult where
  | done
  | panicked
  | item (chunk : List Nat) (it : ChunkIter)
deriving DecidableEq, Repr

/-- ChunkIter::next from src/chunk_iter.rs. -/
def ChunkIter.next (it : ChunkIter) : NextResult :=
  let bytes_left := it.file_bytes.length - it.consumed_bytes
  if bytes_left = 0 then .done
  else
    let i_begin := it.consumed_bytes
    let i_end_min := i_begin + Min.min it.bytes_per_chunk bytes_left - 1
    let search_slice := it.file_bytes.drop i_end_min
    match memchr NL search_slice with
    | none => .panicked
    | some pos =>
      let i_end_actual := pos + i_end_min
      let chunk := (it.file_bytes.take (i_end_actual + 1)).drop i_begin
      .item chunk { it with consumed_bytes := it.consumed_bytes + chunk.length }

/-- Driving ChunkIter::next until exhaustion, collecting the chunks.  The
fuel argument bounds the number of iterations; none is returned on a panic
or if the fuel runs out before the iterator reports completion. -/
def ChunkIter.collectChunks (it : ChunkIter) : Nat → Option (List (List Nat))
  | 0 =>
    match it.next with
    | .done => some []
    | _ => none
  | fuel + 1 =>
    match it.next with
    | .done => some []
    | .panicked => none
    | .item c it' => (it'.collectChunks fuel).map (fun cs => c :: cs)

/-- Result of one iteration of the process_file_chunk loop: abort models a
panic (failed unwrap or slice bound), finished the loop exit, more the data
for the next iteration. -/
inductive StepRes where
  | abort
  | finished (table : List AggregatedData)
  | more (consumed : Nat) (table : List AggregatedData)
deriving DecidableEq, Repr

/-- One iteration of the while loop of process_file_chunk (src/lib.rs).
The minimal-perfect-hash lookup index_minimal of the external ptr_hash
crate is abstracted as the function argument hasher; the unchecked table
access of the source is modelled with an explicit bound check whose failure
is an abort. -/
def loopStep (hasher : List Nat → Nat) (bytes : List Nat) (consumed : Nat)
    (table : List AggregatedData) : StepRes :=
  if consumed < bytes.length then
    let remaining := bytes.drop consumed
    if MIN_STATION_LEN ≤ remaining.length then
      match memchr SEMI (remaining.drop MIN_STATION_LEN) with
      | none => .abort
      | some pos =>
        let delimiter := pos + MIN_STATION_LEN
        let offset2 := delimiter + 1 + MIN_MEASUREMENT_LEN
        if offset2 ≤ remaining.length then
          match memchr NL (remaining.drop offset2) with
          | none => .abort
          | some pos2 =>
            let newline := pos2 + offset2
            let station := remaining.take delimiter
            let meas := (remaining.take newline).drop (delimiter + 1)
            match fast_f32_parse_encoded meas with
            | none => .abort
            | some m =>
              let index := hasher station
              if h : index < table.length then
                .more (consumed + newline + 1)
                  (table.set index ((table.get ⟨index, h⟩).add_datapoint m))
              else .abort
        else .abort
    else .abort
  else .finished table

/-- The while loop of process_file_chunk.  Termination: every iteration
that continues strictly increases the consumed byte count
(loopStep_more_increases). -/
def processLoop (hasher : List Nat → Nat) (bytes : List Nat) (consumed : Nat)
    (table : List AggregatedData) : Option (List AggregatedData) :=
  match h : loopStep hasher bytes consumed table with
  | .abort => none
  | .finished t => some t
  | .more c' t' => processLoop hasher bytes c' t'
termination_by bytes.length - consumed
decreasing_by
  have hmi : consumed < bytes.length ∧ consumed < c' := by
    simp only [loopStep] at h
    split at h
    · next hlt =>
      refine ⟨hlt, ?_⟩
      split at h
      · split at h
        · exact absurd h (by simp)
        · split at h
          · split at h
            · exact absurd h (by simp)
            · split at h
              · exact absurd h (by simp)
              · split at h
                · simp only [StepRes.more.injEq] at h
                  omega
                · exact absurd h (by simp)
          · exact absurd h (by simp)
      · exact absurd h (by simp)
    · exact absurd h (by simp)
  omega

/-- process_file_chunk from src/lib.rs: the two entry assertions followed by
the hot loop. -/
def processFileChunk (hasher : List Nat → Nat) (table : List AggregatedData)
    (bytes : List Nat) : Option (List AggregatedData) :=
  if bytes = [] then none
  else if bytes.getLast? = some NL then processLoop hasher bytes 0 table
  else none

/-- One row application: the table update a single loop iteration performs,
at the reference level (station bytes and decoded measurement). -/
def applyRow (hasher : List Nat → Nat) (table : List AggregatedData)
    (r : List Nat × Int) : Option (List AggregatedData) :=
  if h : hasher r.1 < table.length then
    some (table.set (hasher r.1) ((table.get ⟨hasher r.1, h⟩).add_datapoint r.2))
  else none

/-- Applying a list of rows in order. -/
def applyRows (hasher : List Nat → Nat) (rows : List (List Nat × Int))
    (table : List AggregatedData) : Option (List AggregatedData) :=
  rows.foldlM (applyRow hasher) table

/-- The measurements among the given rows that the hash function sends to
slot i, in order. -/
def slotMeas (hasher : List Nat → Nat) (i : Nat) :
    List (List Nat × Int) → List Int
  | [] => []
  | r :: rs =>
    if hasher r.1 = i then r.2 :: slotMeas hasher i rs
    else slotMeas hasher i rs

/-- The loop of init_lookup_structure (src/lib.rs): for every station,
initialise the entry at its hash index with the station name.  The checked
indexing and the assertion inside AggregatedData::init (name must still be
empty, so hash collisions panic) are modelled as aborts. -/
def initLoop (hasher : List Nat → Nat) :
    List (List Nat) → List AggregatedData → Option (List AggregatedData)
  | [], t => some t
  | s :: rest, t =>
    if h : hasher s < t.length then
      if (t.get ⟨hasher s, h⟩).name = [] then
        initLoop hasher rest (t.set (hasher s) { t.get ⟨hasher s, h⟩ with name := s })
      else none
    else none

/-- The merge step of finalize (src/lib.rs) for one element of a worker
table: hash the element name, initialise the combined entry's name if still
empty, merge.  The checked indexing panic is modelled as an abort. -/
def combineElem (hasher : List Nat → Nat) (comb : List AggregatedData)
    (e : AggregatedData) : Option (List AggregatedData) :=
  if h : hasher e.name < comb.length then
    let c := comb.get ⟨hasher e.name, h⟩
    let c := if c.name = [] then { c with name := e.name } else c
    some (comb.set (hasher e.name) (c.merge e))
  else none

/-- The reduce step of finalize (src/lib.rs): fold every element of every
worker table into a fresh combined table of STATIONS_IN_DATASET entries. -/
def finalizeCombine (hasher : List Nat → Nat)
    (tables : List (List AggregatedData)) : Option (List AggregatedData) :=
  tables.foldlM (fun comb tbl => tbl.foldlM (combineElem hasher) comb)
    (List.replicate STATIONS_IN_DATASET defaultAgg)

/-- Byte-wise lexicographic comparison on byte strings; this is the order
str::partial_cmp induces on the station names in finalize's sort. -/
def lexLe : List Nat → List Nat → Bool
  | [], _ => true
  | _ :: _, [] => false
  | a :: as, b :: bs =>
    if a < b then true
    else if b < a then false
    else lexLe as bs

/-- Insert into a sorted list (auxiliary for the sort model). -/
def insertSorted (x : AggregatedData) : List AggregatedData → List AggregatedData
  | [] => [x]
  | y :: ys => if lexLe x.name y.name then x :: y :: ys else y :: insertSorted x ys

/-- Model of the sort_unstable_by call of finalize: sort the combined table
by byte-lexicographic name order.  On tables with pairwise distinct names
(the only ones finalize produces) every comparison sort yields this same
result, so an insertion sort is used for the model. -/
def sortByName (t : List AggregatedData) : List AggregatedData :=
  t.foldr insertSorted []

def STATIONS_0 : List (List Nat) := [
  [65, 98, 104, 97],
  [65, 98, 105, 100, 106, 97, 110],
  [65, 98, 195, 169, 99, 104, 195, 169],
  [65, 99, 99, 114, 97],
  [65, 100, 100, 105, 115, 32, 65, 98, 97, 98, 97],
  [65, 100, 101, 108, 97, 105, 100, 101],
  [65, 100, 101, 110],
  [65, 104, 118, 97, 122],
  [65, 108, 98, 117, 113, 117, 101, 114, 113, 117, 101],
  [65, 108, 101, 120, 97, 110, 100, 114, 97],
  [65, 108, 101, 120, 97, 110, 100, 114, 105, 97],
  [65, 108, 103, 105, 101, 114, 115],
  [65, 108, 105, 99, 101, 32, 83, 112, 114, 105, 110, 103, 115],
  [65, 108, 109, 97, 116, 121],
  [65, 109, 115, 116, 101, 114, 100, 97, 109],
  [65, 110, 97, 100, 121, 114],
  [65, 110, 99, 104, 111, 114, 97, 103, 101],
  [65, 110, 100, 111, 114, 114, 97, 32, 108, 97, 32, 86, 101, 108, 108, 97],
  [65, 110, 107, 97, 114, 97],
  [65, 110, 116, 97, 110, 97, 110, 97, 114, 105, 118, 111],
  [65, 110, 116, 115, 105, 114, 97, 110, 97, 110, 97],
  [65, 114, 107, 104, 97, 110, 103, 101, 108, 115, 107],
  [65, 115, 104, 103, 97, 98, 97, 116],
  [65, 115, 109, 97, 114, 97],
  [65, 115, 115, 97, 98],
  [65, 115, 116, 97, 110, 97],
  [65, 116, 104, 101, 110, 115],
  [65, 116, 108, 97, 110, 116, 97],
  [65, 117, 99, 107, 108, 97, 110, 100],
  [65, 117, 115, 116, 105, 110],
  [66, 97, 103, 104, 100, 97, 100],
  [66, 97, 103, 117, 105, 111],
  [66, 97, 107, 117],
  [66, 97, 108, 116, 105, 109, 111, 114, 101],
  [66, 97, 109, 97, 107, 111],
  [66, 97, 110, 103, 107, 111, 107],
  [66, 97, 110, 103, 117, 105],
  [66, 97, 110, 106, 117, 108],
  [66, 97, 114, 99, 101, 108, 111, 110, 97],
  [66, 97, 116, 97],
  [66, 97, 116, 117, 109, 105],
  [66, 101, 105, 106, 105, 110, 103],
  [66, 101, 105, 114, 117, 116],
  [66, 101, 108, 103, 114, 97, 100, 101],
  [66, 101, 108, 105, 122, 101, 32, 67, 105, 116, 121],
  [66, 101, 110, 103, 104, 97, 122, 105],
  [66, 101, 114, 103, 101, 110],
  [66, 101, 114, 108, 105, 110],
  [66, 105, 108, 98, 97, 111],
  [66, 105, 114, 97, 111]]

def STATIONS_1 : List (List Nat) := [
  [66, 105, 115, 104, 107, 101, 107],
  [66, 105, 115, 115, 97, 117],
  [66, 108, 97, 110, 116, 121, 114, 101],
  [66, 108, 111, 101, 109, 102, 111, 110, 116, 101, 105, 110],
  [66, 111, 105, 115, 101],
  [66, 111, 114, 100, 101, 97, 117, 120],
  [66, 111, 115, 97, 115, 111],
  [66, 111, 115, 116, 111, 110],
  [66, 111, 117, 97, 107, 195, 169],
  [66, 114, 97, 116, 105, 115, 108, 97, 118, 97],
  [66, 114, 97, 122, 122, 97, 118, 105, 108, 108, 101],
  [66, 114, 105, 100, 103, 101, 116, 111, 119, 110],
  [66, 114, 105, 115, 98, 97, 110, 101],
  [66, 114, 117, 115, 115, 101, 108, 115],
  [66, 117, 99, 104, 97, 114, 101, 115, 116],
  [66, 117, 100, 97, 112, 101, 115, 116],
  [66, 117, 106, 117, 109, 98, 117, 114, 97],
  [66, 117, 108, 97, 119, 97, 121, 111],
  [66, 117, 114, 110, 105, 101],
  [66, 117, 115, 97, 110],
  [67, 97, 98, 111, 32, 83, 97, 110, 32, 76, 117, 99, 97, 115],
  [67, 97, 105, 114, 110, 115],
  [67, 97, 105, 114, 111],
  [67, 97, 108, 103, 97, 114, 121],
  [67, 97, 110, 98, 101, 114, 114, 97],
  [67, 97, 112, 101, 32, 84, 111, 119, 110],
  [67, 104, 97, 110, 103, 115, 104, 97],
  [67, 104, 97, 114, 108, 111, 116, 116, 101],
  [67, 104, 105, 97, 110, 103, 32, 77, 97, 105],
  [67, 104, 105, 99, 97, 103, 111],
  [67, 104, 105, 104, 117, 97, 104, 117, 97],
  [67, 104, 105, 116, 116, 97, 103, 111, 110, 103],
  [67, 104, 105, 200, 153, 105, 110, 196, 131, 117],
  [67, 104, 111, 110, 103, 113, 105, 110, 103],
  [67, 104, 114, 105, 115, 116, 99, 104, 117, 114, 99, 104],
  [67, 105, 116, 121, 32, 111, 102, 32, 83, 97, 110, 32, 77, 97, 114, 105, 110, 111],
  [67, 111, 108, 111, 109, 98, 111],
  [67, 111, 108, 117, 109, 98, 117, 115],
  [67, 111, 110, 97, 107, 114, 121],
  [67, 111, 112, 101, 110, 104, 97, 103, 101, 110],
  [67, 111, 116, 111, 110, 111, 117],
  [67, 114, 97, 99, 111, 119],
  [68, 97, 32, 76, 97, 116],
  [68, 97, 32, 78, 97, 110, 103],
  [68, 97, 107, 97, 114],
  [68, 97, 108, 108, 97, 115],
  [68, 97, 109, 97, 115, 99, 117, 115],
  [68, 97, 109, 112, 105, 101, 114],
  [68, 97, 114, 32, 101, 115, 32, 83, 97, 108, 97, 97, 109],
  [68, 97, 114, 119, 105, 110]]

def STATIONS_2 : List (List Nat) := [
  [68, 101, 110, 112, 97, 115, 97, 114],
  [68, 101, 110, 118, 101, 114],
  [68, 101, 116, 114, 111, 105, 116],
  [68, 104, 97, 107, 97],
  [68, 105, 107, 115, 111, 110],
  [68, 105, 108, 105],
  [68, 106, 105, 98, 111, 117, 116, 105],
  [68, 111, 100, 111, 109, 97],
  [68, 111, 108, 105, 115, 105, 101],
  [68, 111, 117, 97, 108, 97],
  [68, 117, 98, 97, 105],
  [68, 117, 98, 108, 105, 110],
  [68, 117, 110, 101, 100, 105, 110],
  [68, 117, 114, 98, 97, 110],
  [68, 117, 115, 104, 97, 110, 98, 101],
  [69, 100, 105, 110, 98, 117, 114, 103, 104],
  [69, 100, 109, 111, 110, 116, 111, 110],
  [69, 108, 32, 80, 97, 115, 111],
  [69, 110, 116, 101, 98, 98, 101],
  [69, 114, 98, 105, 108],
  [69, 114, 122, 117, 114, 117, 109],
  [70, 97, 105, 114, 98, 97, 110, 107, 115],
  [70, 105, 97, 110, 97, 114, 97, 110, 116, 115, 111, 97],
  [70, 108, 111, 114, 101, 115, 44, 32, 32, 80, 101, 116, 195, 169, 110],
  [70, 114, 97, 110, 107, 102, 117, 114, 116],
  [70, 114, 101, 115, 110, 111],
  [70, 117, 107, 117, 111, 107, 97],
  [71, 97, 98, 111, 114, 111, 110, 101],
  [71, 97, 98, 195, 168, 115],
  [71, 97, 103, 110, 111, 97],
  [71, 97, 110, 103, 116, 111, 107],
  [71, 97, 114, 105, 115, 115, 97],
  [71, 97, 114, 111, 117, 97],
  [71, 101, 111, 114, 103, 101, 32, 84, 111, 119, 110],
  [71, 104, 97, 110, 122, 105],
  [71, 106, 111, 97, 32, 72, 97, 118, 101, 110],
  [71, 117, 97, 100, 97, 108, 97, 106, 97, 114, 97],
  [71, 117, 97, 110, 103, 122, 104, 111, 117],
  [71, 117, 97, 116, 101, 109, 97, 108, 97, 32, 67, 105, 116, 121],
  [72, 97, 108, 105, 102, 97, 120],
  [72, 97, 109, 98, 117, 114, 103],
  [72, 97, 109, 105, 108, 116, 111, 110],
  [72, 97, 110, 103, 97, 32, 82, 111, 97],
  [72, 97, 110, 111, 105],
  [72, 97, 114, 97, 114, 101],
  [72, 97, 114, 98, 105, 110],
  [72, 97, 114, 103, 101, 105, 115, 97],
  [72, 97, 116, 32, 89, 97, 105],
  [72, 97, 118, 97, 110, 97],
  [72, 101, 108, 115, 105, 110, 107, 105]]

def STATIONS_3 : List (List Nat) := [
  [72, 101, 114, 97, 107, 108, 105, 111, 110],
  [72, 105, 114, 111, 115, 104, 105, 109, 97],
  [72, 111, 32, 67, 104, 105, 32, 77, 105, 110, 104, 32, 67, 105, 116, 121],
  [72, 111, 98, 97, 114, 116],
  [72, 111, 110, 103, 32, 75, 111, 110, 103],
  [72, 111, 110, 105, 97, 114, 97],
  [72, 111, 110, 111, 108, 117, 108, 117],
  [72, 111, 117, 115, 116, 111, 110],
  [73, 102, 114, 97, 110, 101],
  [73, 110, 100, 105, 97, 110, 97, 112, 111, 108, 105, 115],
  [73, 113, 97, 108, 117, 105, 116],
  [73, 114, 107, 117, 116, 115, 107],
  [73, 115, 116, 97, 110, 98, 117, 108],
  [74, 97, 99, 107, 115, 111, 110, 118, 105, 108, 108, 101],
  [74, 97, 107, 97, 114, 116, 97],
  [74, 97, 121, 97, 112, 117, 114, 97],
  [74, 101, 114, 117, 115, 97, 108, 101, 109],
  [74, 111, 104, 97, 110, 110, 101, 115, 98, 117, 114, 103],
  [74, 111, 115],
  [74, 117, 98, 97],
  [75, 97, 98, 117, 108],
  [75, 97, 109, 112, 97, 108, 97],
  [75, 97, 110, 100, 105],
  [75, 97, 110, 107, 97, 110],
  [75, 97, 110, 111],
  [75, 97, 110, 115, 97, 115, 32, 67, 105, 116, 121],
  [75, 97, 114, 97, 99, 104, 105],
  [75, 97, 114, 111, 110, 103, 97],
  [75, 97, 116, 104, 109, 97, 110, 100, 117],
  [75, 104, 97, 114, 116, 111, 117, 109],
  [75, 105, 110, 103, 115, 116, 111, 110],
  [75, 105, 110, 115, 104, 97, 115, 97],
  [75, 111, 108, 107, 97, 116, 97],
  [75, 117, 97, 108, 97, 32, 76, 117, 109, 112, 117, 114],
  [75, 117, 109, 97, 115, 105],
  [75, 117, 110, 109, 105, 110, 103],
  [75, 117, 111, 112, 105, 111],
  [75, 117, 119, 97, 105, 116, 32, 67, 105, 116, 121],
  [75, 121, 105, 118],
  [75, 121, 111, 116, 111],
  [76, 97, 32, 67, 101, 105, 98, 97],
  [76, 97, 32, 80, 97, 122],
  [76, 97, 103, 111, 115],
  [76, 97, 104, 111, 114, 101],
  [76, 97, 107, 101, 32, 72, 97, 118, 97, 115, 117, 32, 67, 105, 116, 121],
  [76, 97, 107, 101, 32, 84, 101, 107, 97, 112, 111],
  [76, 97, 115, 32, 80, 97, 108, 109, 97, 115, 32, 100, 101, 32, 71, 114, 97, 110, 32, 67, 97, 110, 97, 114, 105, 97],
  [76, 97, 115, 32, 86, 101, 103, 97, 115],
  [76, 97, 117, 110, 99, 101, 115, 116, 111, 110],
  [76, 104, 97, 115, 97]]

def STATIONS_4 : List (List Nat) := [
  [76, 105, 98, 114, 101, 118, 105, 108, 108, 101],
  [76, 105, 115, 98, 111, 110],
  [76, 105, 118, 105, 110, 103, 115, 116, 111, 110, 101],
  [76, 106, 117, 98, 108, 106, 97, 110, 97],
  [76, 111, 100, 119, 97, 114],
  [76, 111, 109, 195, 169],
  [76, 111, 110, 100, 111, 110],
  [76, 111, 115, 32, 65, 110, 103, 101, 108, 101, 115],
  [76, 111, 117, 105, 115, 118, 105, 108, 108, 101],
  [76, 117, 97, 110, 100, 97],
  [76, 117, 98, 117, 109, 98, 97, 115, 104, 105],
  [76, 117, 115, 97, 107, 97],
  [76, 117, 120, 101, 109, 98, 111, 117, 114, 103, 32, 67, 105, 116, 121],
  [76, 118, 105, 118],
  [76, 121, 111, 110],
  [77, 97, 100, 114, 105, 100],
  [77, 97, 104, 97, 106, 97, 110, 103, 97],
  [77, 97, 107, 97, 115, 115, 97, 114],
  [77, 97, 107, 117, 114, 100, 105],
  [77, 97, 108, 97, 98, 111],
  [77, 97, 108, 195, 169],
  [77, 97, 110, 97, 103, 117, 97],
  [77, 97, 110, 97, 109, 97],
  [77, 97, 110, 100, 97, 108, 97, 121],
  [77, 97, 110, 103, 111],
  [77, 97, 110, 105, 108, 97],
  [77, 97, 112, 117, 116, 111],
  [77, 97, 114, 114, 97, 107, 101, 115, 104],
  [77, 97, 114, 115, 101, 105, 108, 108, 101],
  [77, 97, 117, 110],
  [77, 101, 100, 97, 110],
  [77, 101, 107, 39, 101, 108, 101],
  [77, 101, 108, 98, 111, 117, 114, 110, 101],
  [77, 101, 109, 112, 104, 105, 115],
  [77, 101, 120, 105, 99, 97, 108, 105],
  [77, 101, 120, 105, 99, 111, 32, 67, 105, 116, 121],
  [77, 105, 97, 109, 105],
  [77, 105, 108, 97, 110],
  [77, 105, 108, 119, 97, 117, 107, 101, 101],
  [77, 105, 110, 110, 101, 97, 112, 111, 108, 105, 115],
  [77, 105, 110, 115, 107],
  [77, 111, 103, 97, 100, 105, 115, 104, 117],
  [77, 111, 109, 98, 97, 115, 97],
  [77, 111, 110, 97, 99, 111],
  [77, 111, 110, 99, 116, 111, 110],
  [77, 111, 110, 116, 101, 114, 114, 101, 121],
  [77, 111, 110, 116, 114, 101, 97, 108],
  [77, 111, 115, 99, 111, 119],
  [77, 117, 109, 98, 97, 105],
  [77, 117, 114, 109, 97, 110, 115, 107]]

def STATIONS_5 : List (List Nat) := [
  [77, 117, 115, 99, 97, 116],
  [77, 122, 117, 122, 117],
  [78, 39, 68, 106, 97, 109, 101, 110, 97],
  [78, 97, 104, 97],
  [78, 97, 105, 114, 111, 98, 105],
  [78, 97, 107, 104, 111, 110, 32, 82, 97, 116, 99, 104, 97, 115, 105, 109, 97],
  [78, 97, 112, 105, 101, 114],
  [78, 97, 112, 111, 108, 105],
  [78, 97, 115, 104, 118, 105, 108, 108, 101],
  [78, 97, 115, 115, 97, 117],
  [78, 100, 111, 108, 97],
  [78, 101, 119, 32, 68, 101, 108, 104, 105],
  [78, 101, 119, 32, 79, 114, 108, 101, 97, 110, 115],
  [78, 101, 119, 32, 89, 111, 114, 107, 32, 67, 105, 116, 121],
  [78, 103, 97, 111, 117, 110, 100, 195, 169, 114, 195, 169],
  [78, 105, 97, 109, 101, 121],
  [78, 105, 99, 111, 115, 105, 97],
  [78, 105, 105, 103, 97, 116, 97],
  [78, 111, 117, 97, 100, 104, 105, 98, 111, 117],
  [78, 111, 117, 97, 107, 99, 104, 111, 116, 116],
  [78, 111, 118, 111, 115, 105, 98, 105, 114, 115, 107],
  [78, 117, 117, 107],
  [79, 100, 101, 115, 97],
  [79, 100, 105, 101, 110, 110, 195, 169],
  [79, 107, 108, 97, 104, 111, 109, 97, 32, 67, 105, 116, 121],
  [79, 109, 97, 104, 97],
  [79, 114, 97, 110, 106, 101, 115, 116, 97, 100],
  [79, 115, 108, 111],
  [79, 116, 116, 97, 119, 97],
  [79, 117, 97, 103, 97, 100, 111, 117, 103, 111, 117],
  [79, 117, 97, 104, 105, 103, 111, 117, 121, 97],
  [79, 117, 97, 114, 122, 97, 122, 97, 116, 101],
  [79, 117, 108, 117],
  [80, 97, 108, 101, 109, 98, 97, 110, 103],
  [80, 97, 108, 101, 114, 109, 111],
  [80, 97, 108, 109, 32, 83, 112, 114, 105, 110, 103, 115],
  [80, 97, 108, 109, 101, 114, 115, 116, 111, 110, 32, 78, 111, 114, 116, 104],
  [80, 97, 110, 97, 109, 97, 32, 67, 105, 116, 121],
  [80, 97, 114, 97, 107, 111, 117],
  [80, 97, 114, 105, 115],
  [80, 101, 114, 116, 104],
  [80, 101, 116, 114, 111, 112, 97, 118, 108, 111, 118, 115, 107, 45, 75, 97, 109, 99, 104, 97, 116, 115, 107, 121],
  [80, 104, 105, 108, 97, 100, 101, 108, 112, 104, 105, 97],
  [80, 104, 110, 111, 109, 32, 80, 101, 110, 104],
  [80, 104, 111, 101, 110, 105, 120],
  [80, 105, 116, 116, 115, 98, 117, 114, 103, 104],
  [80, 111, 100, 103, 111, 114, 105, 99, 97],
  [80, 111, 105, 110, 116, 101, 45, 78, 111, 105, 114, 101],
  [80, 111, 110, 116, 105, 97, 110, 97, 107],
  [80, 111, 114, 116, 32, 77, 111, 114, 101, 115, 98, 121]]

def STATIONS_6 : List (List Nat) := [
  [80, 111, 114, 116, 32, 83, 117, 100, 97, 110],
  [80, 111, 114, 116, 32, 86, 105, 108, 97],
  [80, 111, 114, 116, 45, 71, 101, 110, 116, 105, 108],
  [80, 111, 114, 116, 108, 97, 110, 100, 32, 40, 79, 82, 41],
  [80, 111, 114, 116, 111],
  [80, 114, 97, 103, 117, 101],
  [80, 114, 97, 105, 97],
  [80, 114, 101, 116, 111, 114, 105, 97],
  [80, 121, 111, 110, 103, 121, 97, 110, 103],
  [82, 97, 98, 97, 116],
  [82, 97, 110, 103, 112, 117, 114],
  [82, 101, 103, 103, 97, 110, 101],
  [82, 101, 121, 107, 106, 97, 118, 195, 173, 107],
  [82, 105, 103, 97],
  [82, 105, 121, 97, 100, 104],
  [82, 111, 109, 101],
  [82, 111, 115, 101, 97, 117],
  [82, 111, 115, 116, 111, 118, 45, 111, 110, 45, 68, 111, 110],
  [83, 97, 99, 114, 97, 109, 101, 110, 116, 111],
  [83, 97, 105, 110, 116, 32, 80, 101, 116, 101, 114, 115, 98, 117, 114, 103],
  [83, 97, 105, 110, 116, 45, 80, 105, 101, 114, 114, 101],
  [83, 97, 108, 116, 32, 76, 97, 107, 101, 32, 67, 105, 116, 121],
  [83, 97, 110, 32, 65, 110, 116, 111, 110, 105, 111],
  [83, 97, 110, 32, 68, 105, 101, 103, 111],
  [83, 97, 110, 32, 70, 114, 97, 110, 99, 105, 115, 99, 111],
  [83, 97, 110, 32, 74, 111, 115, 101],
  [83, 97, 110, 32, 74, 111, 115, 195, 169],
  [83, 97, 110, 32, 74, 117, 97, 110],
  [83, 97, 110, 32, 83, 97, 108, 118, 97, 100, 111, 114],
  [83, 97, 110, 97, 39, 97],
  [83, 97, 110, 116, 111, 32, 68, 111, 109, 105, 110, 103, 111],
  [83, 97, 112, 112, 111, 114, 111],
  [83, 97, 114, 97, 106, 101, 118, 111],
  [83, 97, 115, 107, 97, 116, 111, 111, 110],
  [83, 101, 97, 116, 116, 108, 101],
  [83, 101, 111, 117, 108],
  [83, 101, 118, 105, 108, 108, 101],
  [83, 104, 97, 110, 103, 104, 97, 105],
  [83, 105, 110, 103, 97, 112, 111, 114, 101],
  [83, 107, 111, 112, 106, 101],
  [83, 111, 99, 104, 105],
  [83, 111, 102, 105, 97],
  [83, 111, 107, 111, 116, 111],
  [83, 112, 108, 105, 116],
  [83, 116, 46, 32, 74, 111, 104, 110, 39, 115],
  [83, 116, 46, 32, 76, 111, 117, 105, 115],
  [83, 116, 111, 99, 107, 104, 111, 108, 109],
  [83, 117, 114, 97, 98, 97, 121, 97],
  [83, 117, 118, 97],
  [83, 117, 119, 97, 197, 130, 107, 105]]

def STATIONS_7 : List (List Nat) := [
  [83, 121, 100, 110, 101, 121],
  [83, 195, 169, 103, 111, 117],
  [84, 97, 98, 111, 114, 97],
  [84, 97, 98, 114, 105, 122],
  [84, 97, 105, 112, 101, 105],
  [84, 97, 108, 108, 105, 110, 110],
  [84, 97, 109, 97, 108, 101],
  [84, 97, 109, 97, 110, 114, 97, 115, 115, 101, 116],
  [84, 97, 109, 112, 97],
  [84, 97, 115, 104, 107, 101, 110, 116],
  [84, 97, 117, 114, 97, 110, 103, 97],
  [84, 98, 105, 108, 105, 115, 105],
  [84, 101, 103, 117, 99, 105, 103, 97, 108, 112, 97],
  [84, 101, 104, 114, 97, 110],
  [84, 101, 108, 32, 65, 118, 105, 118],
  [84, 104, 101, 115, 115, 97, 108, 111, 110, 105, 107, 105],
  [84, 104, 105, 195, 168, 115],
  [84, 105, 106, 117, 97, 110, 97],
  [84, 105, 109, 98, 117, 107, 116, 117],
  [84, 105, 114, 97, 110, 97],
  [84, 111, 97, 109, 97, 115, 105, 110, 97],
  [84, 111, 107, 121, 111],
  [84, 111, 108, 105, 97, 114, 97],
  [84, 111, 108, 117, 99, 97],
  [84, 111, 114, 111, 110, 116, 111],
  [84, 114, 105, 112, 111, 108, 105],
  [84, 114, 111, 109, 115, 195, 184],
  [84, 117, 99, 115, 111, 110],
  [84, 117, 110, 105, 115],
  [85, 108, 97, 97, 110, 98, 97, 97, 116, 97, 114],
  [85, 112, 105, 110, 103, 116, 111, 110],
  [86, 97, 100, 117, 122],
  [86, 97, 108, 101, 110, 99, 105, 97],
  [86, 97, 108, 108, 101, 116, 116, 97],
  [86, 97, 110, 99, 111, 117, 118, 101, 114],
  [86, 101, 114, 97, 99, 114, 117, 122],
  [86, 105, 101, 110, 110, 97],
  [86, 105, 101, 110, 116, 105, 97, 110, 101],
  [86, 105, 108, 108, 97, 104, 101, 114, 109, 111, 115, 97],
  [86, 105, 108, 110, 105, 117, 115],
  [86, 105, 114, 103, 105, 110, 105, 97, 32, 66, 101, 97, 99, 104],
  [86, 108, 97, 100, 105, 118, 111, 115, 116, 111, 107],
  [87, 97, 114, 115, 97, 119],
  [87, 97, 115, 104, 105, 110, 103, 116, 111, 110, 44, 32, 68, 46, 67, 46],
  [87, 97, 117],
  [87, 101, 108, 108, 105, 110, 103, 116, 111, 110],
  [87, 104, 105, 116, 101, 104, 111, 114, 115, 101],
  [87, 105, 99, 104, 105, 116, 97],
  [87, 105, 108, 108, 101, 109, 115, 116, 97, 100],
  [87, 105, 110, 110, 105, 112, 101, 103]]

def STATIONS_8 : List (List Nat) := [
  [87, 114, 111, 99, 197, 130, 97, 119],
  [88, 105, 39, 97, 110],
  [89, 97, 107, 117, 116, 115, 107],
  [89, 97, 110, 103, 111, 110],
  [89, 97, 111, 117, 110, 100, 195, 169],
  [89, 101, 108, 108, 111, 119, 107, 110, 105, 102, 101],
  [89, 101, 114, 101, 118, 97, 110],
  [89, 105, 110, 99, 104, 117, 97, 110],
  [90, 97, 103, 114, 101, 98],
  [90, 97, 110, 122, 105, 98, 97, 114, 32, 67, 105, 116, 121],
  [90, 195, 188, 114, 105, 99, 104],
  [195, 156, 114, 195, 188, 109, 113, 105],
  [196, 176, 122, 109, 105, 114]]

/-- The 413 station names of data_set_properties::ALL_STATIONS
(src/lib.rs), as UTF-8 byte strings (concatenation of the nine blocks
above, which exist only to keep elaboration fast). -/
def ALL_STATIONS : List (List Nat) :=
  STATIONS_0 ++ STATIONS_1 ++ STATIONS_2 ++ STATIONS_3 ++ STATIONS_4 ++ STATIONS_5 ++ STATIONS_6 ++ STATIONS_7 ++ STATIONS_8

/-- Injective numeric encoding of a byte string (base-257 positional
code), used only by the model of the external hash function. -/
def encKey (s : List Nat) : Nat := s.foldl (fun a b => a * 257 + (b + 1)) 0

def KEYS_0 : List Nat := [1126889072, 19128487773834416, 4916122562707939918, 289627140319, 83457148956350778268444631, 4916593181618421777, 1127020412, 289713263871, 83496239822475055180219543, 1264156870406130164121, 324888315694375452181251, 19139690682371278, 5514851854679950539759297693681, 74473605923694, 1264234951013865108391, 74482127368805, 1264304378574242170513, 93623227153196306256761141695483674840, 74482296914772, 21461135268204320451703671278, 83506364242800048459159163, 83525756165739334077217142, 4920918575383020579, 74504143215963, 289899786223, 74504262037086, 74508421076585, 19148681598665932, 4921489260860125995, 74512971256954, 19415494769018274, 75546673112925, 1143798407, 1282375468158801077672, 75546773640017, 19415525289802436, 75546791013468, 75546791211618, 1282377177902546132368, 1143800700, 75546893783656, 19419988147814079, 75564156748657, 4990940304517398302, 84719180506890498519990047, 4990942546657444144, 75564308789337, 75564309120610, 75581656492111, 294092444658]

def KEYS_1 : List Nat := [19424516358270920, 75581776437101, 4992944960039014985, 21781642904258665207335630062, 294193702391, 4993828386213836610, 75607950075245, 75607951329147, 19431251893772133, 329893210270076371715859, 84782555488594773419640721, 329893798066860455989791, 4994682771628476462, 4994696225776024923, 1283853884629489605546, 4995541497990000704, 1283855916214234932662, 4995550467347704652, 75634108779115, 294296205822, 1459075158460348796106833799161821, 76667861758310, 298318528243, 19703653371717578, 5063841137096748326, 1301407751569424142410, 5065843572119405605, 1301921802541052063919, 334594490766206886415755, 19711488300656565, 1301924096462987055513, 334594496247508191194130, 334594520492517777756690, 1301925831949958579879, 22099675692285782526689121270, 6368095090223565115349517421809361461236328, 19719349676805586, 5067872893113859666, 19719358163974110, 334728228312873512373762, 19719384576638190, 76741886967909, 77787774992876, 19991458207116880, 302681126376, 77789067175511, 5137891171347561017, 19991794695000009, 5760377793511547249003434662027, 77789169751659]

def KEYS_2 : List Nat := [5139044904865081654, 77806551667818, 19996309886211554, 302799290590, 77823950430062, 1178276230, 5140479922291390274, 77850006165594, 20007486382871760, 77850293808732, 303020023786, 77876146839652, 20014221968281806, 77876417770594, 5143660664659704114, 1339690194468445739425, 5212806802292463692, 20291927752406635, 20294536866234556, 307331572467, 20299047933284353, 1358499193473732092058, 23069987602164617104604585187, 391668824272584659023544298544858345, 1359755753646035835836, 80105420601971, 20590482768222429, 5360032378296704565, 81152367873262, 81152447117395, 20856209327975122, 20856226811740881, 81152633905509, 91004179732448599587182636, 81182882565479, 354197017425168997188253, 91082168338514042629208664, 1379009055107120252865, 1546082757235157857893421615333976, 21144337443570884, 21144341688214221, 5434095844255710532, 1396562917818800380970, 320131209716, 82273787873113, 82273787936858, 5434101441185687340, 21144371103330151, 82273855770453, 5435247313904262975]

def KEYS_3 : List Nat := [1396860268322143464614, 1397156488691269918893, 103492206200483730160766904370987183968, 82334590865254, 1397599633769412932676, 21160042336688585, 5438130906890710366, 21160073044981495, 83416755117147, 24045425096341939071338213351, 21450364794117600, 21451529726422516, 5513341279539764042, 24352125388523482140579483121, 21720606561132485, 5582211582345672773, 1434922586779156765617, 24369747488985786737413478386, 4982575, 1280913798, 333217829876, 22008752347082942, 333218618092, 85637185310042, 1296570509, 96012549930397657047644965, 22008773904947130, 22008774143317706, 1453658091813058510246, 5658252866041870419, 5658555529859175509, 5658555582020845882, 22024444068244430, 24700301381689342452878028191, 85724417087600, 22031179757019616, 85724452024957, 96110539980832947163295289, 1298154407, 333626078491, 5730213987561605033, 86757014401534, 337580628987, 86758238624097, 109054153531966021305476702827300447438, 97269480075699731308552716, 137080001806661274711675741209718355247587584092430774783061016, 1472688870852430411327, 378481210400639883534118, 337699055854]

def KEYS_4 : List Nat := [378632053767469124996884, 86793324248429, 97308817777315579067465373, 1473355981654110909340, 86819245835375, 337818691225, 86819414329968, 97338101295393958502090264, 378747645049962731377714, 86845369140315, 378860428416756615154454, 86845673826151, 424763044438418964245022319448300530, 1314930853, 1315130534, 87879325814615, 1491716922309398862209, 5804349364822522683, 22585017323167188, 87879460486738, 341943451275, 22585030070364353, 87879494438737, 5804352741068608047, 341943559671, 87879494966872, 87879529710716, 1491719822698014121639, 1491719823836585407655, 1330521493, 342010796010, 22589500617864577, 1492014280638062014898, 22589510582148058, 5805516521693178676, 98546280110532742884128041, 342078499314, 342079222774, 1492310508759365805997, 98565654190013061653590410, 342079359495, 1492753350379993956522, 22600721892974535, 87940569021795, 22600726273673445, 1492755388644104709070, 5808386726461459274, 87940654029950, 87966726935137, 5810120001100863574]

def KEYS_5 : List Nat := [87966828848755, 342368391728, 1506442740182436042030, 1347492732, 22873145354619595, 28751286716662300172614637517461972973965, 89000683807333, 89000684205417, 1510751247714452197295, 89000735390577, 346357021171, 1511048523958464627513, 99803243962116710027464489, 6591904460643937642384901814965, 25651841579015130964158312994, 89035329215849, 22882088368283853, 22882114406123460, 388529652799784838423064, 388529652807611094207786, 99852140841732079366488228, 1348817063, 350718832881, 5953313869363030737, 6676852047768500380777619426290, 350871337195, 393476274008983004777237, 1365657249, 90204793012598, 101138074914463838100773259, 393533365723048465207333, 393533368623450184121648, 1365789353, 1548811523353155328400, 23449431836593367, 26290445389172746460954819740, 114691289861702187081939035990668977248, 102297490072042511916391698, 23449457943055578, 355031235588, 355099136776, 2183127602955767594947266928737634524621030615457324378581, 26299229620004281677169101009, 398177930521157053097399, 23457293007990754, 398197407423813362228790, 1549845936743443354273, 26308028577533354500460339621, 1549848832660069059758, 26308072704538427044487677618]

def KEYS_6 : List Nat := [398311446116370611684042, 1549849984888651735130, 102366041655639502213258816, 6761174686514223717458386409059, 355268882713, 91316900843370, 355318680818, 6031394525034470990, 1550589625656944029125, 363755117551, 24025714210384614, 24030168291671488, 407903660556081579440065, 1415919239, 93520355385447, 1416317079, 93546428623733, 6927221583251768069343790408434, 412716913881390278483223, 118919061668632740435710580081056640082, 27259568716246077599129843103, 1800468230408988594695617195638776, 106068450128731024365535269, 1605905466087143839283, 7005715062648001897186885998567, 6248659401219538651, 1605905466113421457635, 6248659401219930328, 27259591684413039416089401482, 94606423779089, 7005715474266621430674871750399, 24313859895545579, 6248664169942214211, 1605906990984497421500, 24318279146288857, 368186350093, 24318370570918363, 6250662124623025963, 1606497955092024547761, 94650066465650, 368355300091, 368355498487, 94667448385413, 368372869393, 413074557328931525764680, 1607293997397564419882, 1607312801542548136637, 6254426905956467008, 1433690275, 6254432513413593027]

def KEYS_7 : List Nat := [94710954197378, 95034947794192, 95727375920991, 95727376116850, 95727494805858, 24601979184883929, 95727561715290, 107325424218104605559222670, 372480788728, 6322716481182894410, 6322718766948231227, 24603087252367063, 107344875529203819106787697, 95744927843944, 6323860865519025379, 27591394156998209800523604474, 95758037597961, 24610939851330515, 6325014822708982621, 95762546351973, 1625969670997296960678, 372718303259, 24617675301935571, 95788620644974, 24617701579464700, 24621025798948842, 24621051923134103, 95814642567042, 372820344856, 108635985193931196981016167, 6401078507386135388, 381205136399, 6470810939125065771, 6470810969510712901, 1662998985391116021186, 6471970195648878426, 98004636327015, 1663588813790411650476, 28238777231010724686772743923, 25187222073010673, 1865144929361278098060442515658810, 109892973708892129122801569, 99091112453499, 124556388842033327606699938620866956641, 5837616, 432357723357567189071149, 432414596948671199204396, 25475319516444880, 432433847945076815123232, 6547169474604717129]

def KEYS_8 : List Nat := [6549763780602927042, 390061839804, 26042659013490931, 101333353552242, 6692967850983925988, 113629911493085002391662996, 26047173898889953, 6695271745663940935, 102454390347105, 7586875242420531627945229308167, 26441022308974214, 14559394538030621343, 221641766360892]

/-- The numeric keys of the 413 station names under encKey, as literals
(concatenation of the nine blocks above, which exist only to keep
elaboration and kernel evaluation fast); STATION_KEYS equals
ALL_STATIONS.map encKey (stationKeys_eq below). -/
def STATION_KEYS : List Nat :=
  KEYS_0 ++ KEYS_1 ++ KEYS_2 ++ KEYS_3 ++ KEYS_4 ++ KEYS_5 ++ KEYS_6 ++ KEYS_7 ++ KEYS_8

/-- Position of the first occurrence of a key in a list of keys. -/
def idxOfKey (k : Nat) : List Nat → Option Nat
  | [] => none
  | t :: ts => if t = k then some 0 else (idxOfKey k ts).map (fun i => i + 1)

/-- Modelled from the spec: the minimal perfect hash of the external
ptr_hash crate (PtrHash::index_minimal), which is not part of this
repository.  The specification describes it as a minimal perfect hash
pre-computed over the known station set, so it maps the 413 known stations
bijectively onto slots 0..412; for unknown keys it returns an unspecified
in-range slot, modelled here as slot 0.  The model realises the hash as the
position of the key in ALL_STATIONS, computed over the numeric key list for
evaluation speed. -/
def modelHasher (s : List Nat) : Nat :=
  match idxOfKey (encKey s) STATION_KEYS with
  | some i => i
  | none => 0

/-- Modelled from the spec: the properties of PtrHash::index_minimal that
the proofs rely on — every key receives an in-range slot, the hash is
injective on the known station set, and every slot is hit by some known
station (minimal perfect hashing). -/
def HasherSpec (hasher : List Nat → Nat) : Prop :=
  (∀ s, hasher s < STATIONS_IN_DATASET) ∧
  (∀ s1 ∈ ALL_STATIONS, ∀ s2 ∈ ALL_STATIONS, hasher s1 = hasher s2 → s1 = s2) ∧
  (∀ i < STATIONS_IN_DATASET, ∃ s ∈ ALL_STATIONS, hasher s = i)

/-- init_lookup_structure (src/lib.rs): a table of STATIONS_IN_DATASET
default entries, with the entry at each station's hash index initialised
with the station name. -/
def initLookupStructure (hasher : List Nat → Nat) : Option (List AggregatedData) :=
  initLoop hasher ALL_STATIONS (List.replicate STATIONS_IN_DATASET defaultAgg)

/-- The processing pipeline on a list of chunks, shared by
process_single_threaded (one chunk) and process_multi_threaded (one chunk
per worker): build the lookup structure, process every chunk against a copy
of it, and reduce the per-chunk tables with finalize's merge loop.  A panic
in any stage (including in a worker) aborts the whole computation. -/
def processChunked (hasher : List Nat → Nat) (chunks : List (List Nat)) :
    Option (List AggregatedData) :=
  (initLookupStructure hasher).bind fun t0 =>
    (chunks.mapM (fun c => processFileChunk hasher t0 c)).bind fun ts =>
      finalizeCombine hasher ts

/-- process_single_threaded up to the point where print_results receives
the combined, name-sorted table: the station names and scaled aggregates of
the single line that finalize prints. -/
def processSingleThreadedTable (hasher : List Nat → Nat) (bytes : List Nat) :
    Option (List AggregatedData) :=
  (processChunked hasher [bytes]).map sortByName

/-- The ten ASCII digit bytes. -/
def digitList : List Nat := [48, 49, 50, 51, 52, 53, 54, 55, 56, 57]

/-- The numeric state of an aggregate that has not received a datapoint:
the Default::default() sentinels. -/
def freshStats (a : AggregatedData) : Prop :=
  a.min = 32767 ∧ a.max = -32768 ∧ a.sum = 0 ∧ a.sample_count = 0

/-- An aggregate is fresh or carries in-range data with ordered bounds;
every aggregate the program builds from in-range datapoints is of this
shape. -/
def GoodF (a : AggregatedData) : Prop :=
  freshStats a ∨ (-999 ≤ a.min ∧ a.min ≤ a.max ∧ a.max ≤ 999)

/-- All measurements of a list are in the scaled range -999..=999. -/
def InRangeList (ms : List Int) : Prop := ∀ m ∈ ms, -999 ≤ m ∧ m ≤ 999

/-- The per-aggregate invariant of non-fresh aggregates built from in-range
datapoints. -/
def StatsInv (a : AggregatedData) : Prop :=
  -999 ≤ a.min ∧ a.min ≤ a.max ∧ a.max ≤ 999 ∧ 1 ≤ a.sample_count ∧
  a.min * (a.sample_count : Int) ≤ a.sum ∧ a.sum ≤ a.max * (a.sample_count : Int)

/-- A well-formed row: a station name of at least MIN_STATION_LEN bytes
containing neither separator byte, and a measurement matching the codec
grammar. -/
def PairOK (p : List Nat × List Nat) : Prop :=
  MIN_STATION_LEN ≤ p.1.length ∧ SEMI ∉ p.1 ∧ NL ∉ p.1 ∧ measGrammar p.2 = true

instance (p : List Nat × List Nat) : Decidable (PairOK p) :=
  inferInstanceAs (Decidable (MIN_STATION_LEN ≤ p.1.length ∧ SEMI ∉ p.1 ∧
    NL ∉ p.1 ∧ measGrammar p.2 = true))

/-- The byte encoding of one row: station, semicolon, measurement,
newline. -/
def lineOf (p : List Nat × List Nat) : List Nat :=
  p.1 ++ SEMI :: (p.2 ++ [NL])

/-- The byte encoding of a list of rows. -/
def bytesOf (prs : List (List Nat × List Nat)) : List Nat :=
  (prs.map lineOf).flatten

/-- The decoded rows: station paired with scaled measurement value. -/
def rowsOf (prs : List (List Nat × List Nat)) : List (List Nat × Int) :=
  prs.map (fun p => (p.1, specDecimalValue p.2))

/-- Fuel-bounded variant of the hot loop, used to state termination: the
outer none means the fuel ran out before the loop finished or aborted,
some none an abort, some (some t) a normal return. -/
def processLoopFuel (hasher : List Nat → Nat) (bytes : List Nat) :
    Nat → Nat → List AggregatedData → Option (Option (List AggregatedData))
  | 0, consumed, table =>
    match loopStep hasher bytes consumed table with
    | .abort => some none
    | .finished t => some (some t)
    | .more _ _ => none
  | fuel + 1, consumed, table =>
    match loopStep hasher bytes consumed table with
    | .abort => some none
    | .finished t => some (some t)
    | .more c' t' => processLoopFuel hasher bytes fuel c' t'

/-- Pointwise check that station i hashes to slot i, as one boolean
computation. -/
def checkIds : Nat → List (List Nat) → Bool
  | _, [] => true
  | i, s :: ss => (modelHasher s == i) && checkIds (i + 1) ss

/-- The table a worker produces for one list of rows (total function; under
the in-range condition it is the value of applyRows). -/
def chunkTable (hasher : List Nat → Nat) (t0 : List AggregatedData)
    (g : List (List Nat × List Nat)) : List AggregatedData :=
  (applyRows hasher (rowsOf g) t0).getD t0

theorem loopStep_more_increases (hasher : List Nat → Nat) (bytes : List Nat)
    (consumed : Nat) (table : List AggregatedData) (c' : Nat)
    (t' : List AggregatedData)
    (h : loopStep hasher bytes consumed table = .more c' t') :
    consumed < bytes.length ∧ consumed < c' := by
  simp only [loopStep] at h
  split at h
  · next hlt =>
    refine ⟨hlt, ?_⟩
    split at h
    · split at h
      · exact absurd h (by simp)
      · split at h
        · split at h
          · exact absurd h (by simp)
          · split at h
            · exact absurd h (by simp)
            · split at h
              · simp only [StepRes.more.injEq] at h
                omega
              · exact absurd h (by simp)
        · exact absurd h (by simp)
    · exact absurd h (by simp)
  · exact absurd h (by simp)

/-! Basic facts about memchr. -/

theorem memchr_nil (c : Nat) : memchr c [] = none := rfl

theorem memchr_cons (c b : Nat) (bs : List Nat) :
    memchr c (b :: bs) =
      if b = c then some 0 else (memchr c bs).map (fun i => i + 1) := rfl

theorem memchr_cons_self (c : Nat) (l : List Nat) :
    memchr c (c :: l) = some 0 := by
  rw [memchr_cons, if_pos rfl]

theorem memchr_eq_none_iff (c : Nat) (l : List Nat) :
    memchr c l = none ↔ c ∉ l := by
  induction l with
  | nil => simp [memchr_nil]
  | cons b bs ih =>
    by_cases hb : b = c
    · subst hb
      simp [memchr_cons_self]
    · rw [memchr_cons, if_neg hb]
      constructor
      · intro h hmem
        rcases List.mem_cons.mp hmem with hcb | hm
        · exact hb hcb.symm
        · cases hmc : memchr c bs with
          | none => exact (ih.mp hmc) hm
          | some i => rw [hmc] at h; exact absurd h (by simp)
      · intro h
        have hnb : c ∉ bs := fun hm => h (List.mem_cons_of_mem _ hm)
        rw [ih.mpr hnb]
        rfl

theorem memchr_append_of_not_mem (c : Nat) (xs ys : List Nat) (h : c ∉ xs) :
    memchr c (xs ++ ys) = (memchr c ys).map (fun i => i + xs.length) := by
  induction xs with
  | nil =>
    simp only [List.nil_append, List.length_nil]
    cases memchr c ys <;> simp
  | cons b bs ih =>
    have hb : b ≠ c := fun hbc => h (hbc ▸ List.mem_cons_self b bs)
    have hbs : c ∉ bs := fun hm => h (List.mem_cons_of_mem _ hm)
    rw [List.cons_append, memchr_cons, if_neg hb, ih hbs]
    cases memchr c ys with
    | none => rfl
    | some i =>
      simp only [Option.map_some', List.length_cons, Option.some.injEq]
      omega

theorem memchr_first (c : Nat) (xs ys : List Nat) (h : c ∉ xs) :
    memchr c (xs ++ c :: ys) = some xs.length := by
  rw [memchr_append_of_not_mem c xs _ h, memchr_cons_self]
  simp

theorem memchr_some (c : Nat) (l : List Nat) (i : Nat)
    (h : memchr c l = some i) : i < l.length ∧ l[i]? = some c := by
  induction l generalizing i with
  | nil => rw [memchr_nil] at h; exact absurd h (by simp)
  | cons b bs ih =>
    rw [memchr_cons] at h
    by_cases hb : b = c
    · rw [if_pos hb] at h
      have : i = 0 := by
        have := h
        simp at this
        omega
      subst this
      subst hb
      simp
    · rw [if_neg hb] at h
      cases hm : memchr c bs with
      | none => rw [hm] at h; exact absurd h (by simp)
      | some j =>
        rw [hm] at h
        simp only [Option.map_some', Option.some.injEq] at h
        subst h
        have := ih j hm
        simp only [List.length_cons, List.getElem?_cons_succ]
        exact ⟨by omega, this.2⟩

theorem memchr_isSome_of_mem (c : Nat) (l : List Nat) (h : c ∈ l) :
    ∃ i, memchr c l = some i := by
  induction l with
  | nil => exact absurd h (by simp)
  | cons b bs ih =>
    by_cases hb : b = c
    · exact ⟨0, by rw [hb, memchr_cons_self]⟩
    · rcases List.mem_cons.mp h with hcb | hm
      · exact absurd hcb.symm hb
      · obtain ⟨i, hi⟩ := ih hm
        exact ⟨i + 1, by rw [memchr_cons, if_neg hb, hi]; rfl⟩

/-! Facts about the measurement grammar and the parser. -/

theorem measGrammar_cases (m : List Nat) (h : measGrammar m = true) :
    (∃ a c, m = [a, 46, c] ∧ isDigit a = true ∧ isDigit c = true) ∨
    (∃ a c, m = [45, a, 46, c] ∧ isDigit a = true ∧ isDigit c = true) ∨
    (∃ a b c, m = [a, b, 46, c] ∧ isDigit a = true ∧ isDigit b = true ∧
      isDigit c = true) ∨
    (∃ a b c, m = [45, a, b, 46, c] ∧ isDigit a = true ∧ isDigit b = true ∧
      isDigit c = true) := by
  match m with
  | [] => exact absurd h (by simp [measGrammar])
  | [a] => exact absurd h (by simp [measGrammar])
  | [a, b] => exact absurd h (by simp [measGrammar])
  | [a, b, c] =>
    simp only [measGrammar, Bool.and_eq_true, decide_eq_true_eq] at h
    exact Or.inl ⟨a, c, by rw [h.1.2], h.1.1, h.2⟩
  | [a, b, c, d] =>
    simp only [measGrammar, Bool.or_eq_true, Bool.and_eq_true,
      decide_eq_true_eq] at h
    rcases h with ⟨⟨⟨ha, hb⟩, hc⟩, hd⟩ | ⟨⟨⟨ha, hb⟩, hc⟩, hd⟩
    · exact Or.inr (Or.inl ⟨b, d, by rw [ha, hc], hb, hd⟩)
    · exact Or.inr (Or.inr (Or.inl ⟨a, b, d, by rw [hc], ha, hb, hd⟩))
  | [a, b, c, d, e] =>
    simp only [measGrammar, Bool.and_eq_true, decide_eq_true_eq] at h
    rcases h with ⟨⟨⟨⟨ha, hb⟩, hc⟩, hd⟩, he⟩
    exact Or.inr (Or.inr (Or.inr ⟨b, c, e, by rw [ha, hd], hb, hc, he⟩))
  | _ :: _ :: _ :: _ :: _ :: _ :: _ => exact absurd h (by simp [measGrammar])

theorem isDigit_bounds (b : Nat) (h : isDigit b = true) : 48 ≤ b ∧ b ≤ 57 := by
  simp only [isDigit, Bool.and_eq_true, decide_eq_true_eq] at h
  exact h

theorem wrap16_eq_self (x : Int) (h1 : -32768 ≤ x) (h2 : x ≤ 32767) :
    wrap16 x = x := by
  unfold wrap16
  omega

theorem digit_cast (a : Nat) (h1 : 48 ≤ a) (h2 : a ≤ 57) :
    (((a + 208) % 256 : Nat) : Int) = (a : Int) - 48 := by
  omega

theorem measGrammar_length (m : List Nat) (h : measGrammar m = true) :
    3 ≤ m.length ∧ m.length ≤ 5 := by
  rcases measGrammar_cases m h with ⟨a, c, rfl, _⟩ | ⟨a, c, rfl, _⟩ |
    ⟨a, b, c, rfl, _⟩ | ⟨a, b, c, rfl, _⟩ <;> simp

theorem measGrammar_not_mem (m : List Nat) (h : measGrammar m = true) :
    NL ∉ m ∧ SEMI ∉ m := by
  rcases measGrammar_cases m h with ⟨a, c, rfl, ha, hc⟩ | ⟨a, c, rfl, ha, hc⟩ |
    ⟨a, b, c, rfl, ha, hb, hc⟩ | ⟨a, b, c, rfl, ha, hb, hc⟩
  · obtain ⟨h1, h2⟩ := isDigit_bounds _ ha
    obtain ⟨h3, h4⟩ := isDigit_bounds _ hc
    constructor <;> simp [NL, SEMI] <;> omega
  · obtain ⟨h1, h2⟩ := isDigit_bounds _ ha
    obtain ⟨h3, h4⟩ := isDigit_bounds _ hc
    constructor <;> simp [NL, SEMI] <;> omega
  · obtain ⟨h1, h2⟩ := isDigit_bounds _ ha
    obtain ⟨h3, h4⟩ := isDigit_bounds _ hb
    obtain ⟨h5, h6⟩ := isDigit_bounds _ hc
    constructor <;> simp [NL, SEMI] <;> omega
  · obtain ⟨h1, h2⟩ := isDigit_bounds _ ha
    obtain ⟨h3, h4⟩ := isDigit_bounds _ hb
    obtain ⟨h5, h6⟩ := isDigit_bounds _ hc
    constructor <;> simp [NL, SEMI] <;> omega

theorem specDecimalValue_range (m : List Nat) (h : measGrammar m = true) :
    -999 ≤ specDecimalValue m ∧ specDecimalValue m ≤ 999 := by
  rcases measGrammar_cases m h with ⟨a, c, rfl, ha, hc⟩ | ⟨a, c, rfl, ha, hc⟩ |
    ⟨a, b, c, rfl, ha, hb, hc⟩ | ⟨a, b, c, rfl, ha, hb, hc⟩
  · obtain ⟨h1, h2⟩ := isDigit_bounds _ ha
    obtain ⟨h3, h4⟩ := isDigit_bounds _ hc
    simp only [specDecimalValue]
    omega
  · obtain ⟨h1, h2⟩ := isDigit_bounds _ ha
    obtain ⟨h3, h4⟩ := isDigit_bounds _ hc
    simp only [specDecimalValue, if_pos rfl]
    omega
  · obtain ⟨h1, h2⟩ := isDigit_bounds _ ha
    obtain ⟨h3, h4⟩ := isDigit_bounds _ hb
    obtain ⟨h5, h6⟩ := isDigit_bounds _ hc
    simp only [specDecimalValue]
    rw [if_neg (by omega : ¬(a = 45))]
    omega
  · obtain ⟨h1, h2⟩ := isDigit_bounds _ ha
    obtain ⟨h3, h4⟩ := isDigit_bounds _ hb
    obtain ⟨h5, h6⟩ := isDigit_bounds _ hc
    simp only [specDecimalValue]
    omega

theorem isDigit_mem_digitList (b : Nat) (h : isDigit b = true) :
    b ∈ digitList := by
  obtain ⟨h1, h2⟩ := isDigit_bounds b h
  simp only [digitList, List.mem_cons, List.not_mem_nil, or_false]
  omega

theorem parse_shape3 : ∀ a ∈ digitList, ∀ c ∈ digitList,
    fast_f32_parse_encoded [a, 46, c] = some (specDecimalValue [a, 46, c]) := by
  decide

theorem parse_shape4neg : ∀ a ∈ digitList, ∀ c ∈ digitList,
    fast_f32_parse_encoded [45, a, 46, c] =
      some (specDecimalValue [45, a, 46, c]) := by
  decide

theorem parse_shape4 : ∀ a ∈ digitList, ∀ b ∈ digitList, ∀ c ∈ digitList,
    fast_f32_parse_encoded [a, b, 46, c] =
      some (specDecimalValue [a, b, 46, c]) := by
  decide

theorem parse_shape5 : ∀ a ∈ digitList, ∀ b ∈ digitList, ∀ c ∈ digitList,
    fast_f32_parse_encoded [45, a, b, 46, c] =
      some (specDecimalValue [45, a, b, 46, c]) := by
  decide

theorem parse_measGrammar (m : List Nat) (h : measGrammar m = true) :
    fast_f32_parse_encoded m = some (specDecimalValue m) := by
  rcases measGrammar_cases m h with ⟨a, c, rfl, ha, hc⟩ | ⟨a, c, rfl, ha, hc⟩ |
    ⟨a, b, c, rfl, ha, hb, hc⟩ | ⟨a, b, c, rfl, ha, hb, hc⟩
  · exact parse_shape3 a (isDigit_mem_digitList a ha) c (isDigit_mem_digitList c hc)
  · exact parse_shape4neg a (isDigit_mem_digitList a ha) c (isDigit_mem_digitList c hc)
  · exact parse_shape4 a (isDigit_mem_digitList a ha) b (isDigit_mem_digitList b hb)
      c (isDigit_mem_digitList c hc)
  · exact parse_shape5 a (isDigit_mem_digitList a ha) b (isDigit_mem_digitList b hb)
      c (isDigit_mem_digitList c hc)

/-! Algebra of aggregates. -/

theorem statsOf_fields (a b : AggregatedData) (h : statsOf a = statsOf b) :
    a.min = b.min ∧ a.max = b.max ∧ a.sum = b.sum ∧
    a.sample_count = b.sample_count := by
  simp only [statsOf, Prod.mk.injEq] at h
  exact ⟨h.1, h.2.1, h.2.2.1, h.2.2.2⟩

theorem defaultAgg_freshStats : freshStats defaultAgg :=
  ⟨rfl, rfl, rfl, rfl⟩

theorem merge_min (a b : AggregatedData) :
    (a.merge b).min = Min.min a.min b.min := rfl

theorem merge_max (a b : AggregatedData) :
    (a.merge b).max = Max.max a.max b.max := rfl

theorem merge_sum (a b : AggregatedData) : (a.merge b).sum = a.sum + b.sum := rfl

theorem merge_sample_count (a b : AggregatedData) :
    (a.merge b).sample_count = a.sample_count + b.sample_count := rfl

theorem merge_name (a b : AggregatedData) : (a.merge b).name = a.name := rfl

theorem add_datapoint_sample_count (a : AggregatedData) (m : Int) :
    (a.add_datapoint m).sample_count = a.sample_count + 1 := by
  simp only [AggregatedData.add_datapoint]
  split_ifs <;> rfl

theorem add_datapoint_sum (a : AggregatedData) (m : Int) :
    (a.add_datapoint m).sum = a.sum + m := by
  simp only [AggregatedData.add_datapoint]
  split_ifs <;> rfl

theorem add_datapoint_name (a : AggregatedData) (m : Int) :
    (a.add_datapoint m).name = a.name := by
  simp only [AggregatedData.add_datapoint]
  split_ifs <;> rfl

theorem add_datapoint_min (a : AggregatedData) (m : Int) (hG : GoodF a)
    (hm1 : -999 ≤ m) (hm2 : m ≤ 999) :
    (a.add_datapoint m).min = Min.min a.min m := by
  obtain ⟨amin, amax, asum, acnt, aname⟩ := a
  simp only [AggregatedData.add_datapoint, AggregatedData.empty, GoodF,
    freshStats, decide_eq_true_eq] at *
  split_ifs <;> dsimp only <;> omega

theorem add_datapoint_max (a : AggregatedData) (m : Int) (hG : GoodF a)
    (hm1 : -999 ≤ m) (hm2 : m ≤ 999) :
    (a.add_datapoint m).max = Max.max a.max m := by
  obtain ⟨amin, amax, asum, acnt, aname⟩ := a
  simp only [AggregatedData.add_datapoint, AggregatedData.empty, GoodF,
    freshStats, decide_eq_true_eq] at *
  split_ifs <;> dsimp only <;> omega

theorem goodF_add (a : AggregatedData) (m : Int) (hG : GoodF a)
    (hm1 : -999 ≤ m) (hm2 : m ≤ 999) : GoodF (a.add_datapoint m) := by
  right
  rw [add_datapoint_min a m hG hm1 hm2, add_datapoint_max a m hG hm1 hm2]
  rcases hG with ⟨f1, f2, f3, f4⟩ | ⟨g1, g2, g3⟩
  · rw [f1, f2]
    refine ⟨by omega, by omega, by omega⟩
  · refine ⟨by omega, by omega, by omega⟩

theorem goodF_merge (a b : AggregatedData) (ha : GoodF a) (hb : GoodF b) :
    GoodF (a.merge b) := by
  rcases ha with ⟨a1, a2, a3, a4⟩ | ⟨a1, a2, a3⟩ <;>
    rcases hb with ⟨b1, b2, b3, b4⟩ | ⟨b1, b2, b3⟩
  · left
    refine ⟨?_, ?_, ?_, ?_⟩ <;>
      simp only [merge_min, merge_max, merge_sum, merge_sample_count,
        a1, a2, a3, a4, b1, b2, b3, b4] <;> omega
  · right
    refine ⟨?_, ?_, ?_⟩ <;>
      simp only [merge_min, merge_max, a1, a2] <;> omega
  · right
    refine ⟨?_, ?_, ?_⟩ <;>
      simp only [merge_min, merge_max, b1, b2] <;> omega
  · right
    refine ⟨?_, ?_, ?_⟩ <;> simp only [merge_min, merge_max] <;> omega

theorem merge_fresh_right (a b : AggregatedData) (ha : GoodF a)
    (hb : freshStats b) : a.merge b = a := by
  obtain ⟨b1, b2, b3, b4⟩ := hb
  have hmin : -32768 ≤ a.min ∧ a.min ≤ 32767 ∧ -32768 ≤ a.max := by
    rcases ha with ⟨a1, a2, a3, a4⟩ | ⟨a1, a2, a3⟩ <;> omega
  ext
  · rw [merge_min, b1]
    omega
  · rw [merge_max, b2]
    omega
  · rw [merge_sum, b3]
    omega
  · rw [merge_sample_count, b4]
    omega
  · rw [merge_name]


theorem add_merge_exchange (a b : AggregatedData) (m : Int)
    (ha : GoodF a) (hb : GoodF b) (hm1 : -999 ≤ m) (hm2 : m ≤ 999) :
    (a.merge b).add_datapoint m = a.merge (b.add_datapoint m) := by
  have hab := goodF_merge a b ha hb
  ext
  · rw [add_datapoint_min _ m hab hm1 hm2, merge_min, merge_min,
      add_datapoint_min b m hb hm1 hm2]
    omega
  · rw [add_datapoint_max _ m hab hm1 hm2, merge_max, merge_max,
      add_datapoint_max b m hb hm1 hm2]
    omega
  · rw [add_datapoint_sum, merge_sum, merge_sum, add_datapoint_sum]
    ring
  · rw [add_datapoint_sample_count, merge_sample_count, merge_sample_count,
      add_datapoint_sample_count]
    omega
  · rw [add_datapoint_name, merge_name, merge_name]

theorem addAll_nil (a : AggregatedData) : addAll a [] = a := rfl

theorem addAll_cons (a : AggregatedData) (m : Int) (ms : List Int) :
    addAll a (m :: ms) = addAll (a.add_datapoint m) ms := rfl

theorem addAll_append (a : AggregatedData) (ms1 ms2 : List Int) :
    addAll a (ms1 ++ ms2) = addAll (addAll a ms1) ms2 :=
  List.foldl_append _ _ _ _

theorem goodF_addAll (a : AggregatedData) (ms : List Int) (ha : GoodF a)
    (hr : InRangeList ms) : GoodF (addAll a ms) := by
  induction ms generalizing a with
  | nil => exact ha
  | cons m ms ih =>
    rw [addAll_cons]
    have hm := hr m (List.mem_cons_self m ms)
    exact ih (a.add_datapoint m) (goodF_add a m ha hm.1 hm.2)
      (fun x hx => hr x (List.mem_cons_of_mem m hx))

theorem merge_addAll (a b : AggregatedData) (ms : List Int)
    (ha : GoodF a) (hb : GoodF b) (hr : InRangeList ms) :
    a.merge (addAll b ms) = addAll (a.merge b) ms := by
  induction ms generalizing b with
  | nil => rfl
  | cons m ms ih =>
    rw [addAll_cons, addAll_cons]
    have hm := hr m (List.mem_cons_self m ms)
    rw [ih (b.add_datapoint m) (goodF_add b m hb hm.1 hm.2)
      (fun x hx => hr x (List.mem_cons_of_mem m hx))]
    rw [add_merge_exchange a b m ha hb hm.1 hm.2]

theorem merge_addAll_self (x : AggregatedData) (ms : List Int)
    (hx : freshStats x) (hr : InRangeList ms) :
    x.merge (addAll x ms) = addAll x ms := by
  rw [merge_addAll x x ms (Or.inl hx) (Or.inl hx) hr,
    merge_fresh_right x x (Or.inl hx) hx]

theorem addAll_sample_count (a : AggregatedData) (ms : List Int) :
    (addAll a ms).sample_count = a.sample_count + ms.length := by
  induction ms generalizing a with
  | nil => simp [addAll_nil]
  | cons m ms ih =>
    rw [addAll_cons, ih, add_datapoint_sample_count, List.length_cons]
    omega

theorem addAll_sum (a : AggregatedData) (ms : List Int) :
    (addAll a ms).sum = a.sum + ms.sum := by
  induction ms generalizing a with
  | nil => simp [addAll_nil]
  | cons m ms ih =>
    rw [addAll_cons, ih, add_datapoint_sum, List.sum_cons]
    ring

theorem addAll_name (a : AggregatedData) (ms : List Int) :
    (addAll a ms).name = a.name := by
  induction ms generalizing a with
  | nil => rfl
  | cons m ms ih => rw [addAll_cons, ih, add_datapoint_name]

theorem list_sum_bounds (ms : List Int) (hr : InRangeList ms) :
    -999 * (ms.length : Int) ≤ ms.sum ∧ ms.sum ≤ 999 * (ms.length : Int) := by
  induction ms with
  | nil => simp
  | cons m ms ih =>
    have hm := hr m (List.mem_cons_self m ms)
    have hms := ih (fun x hx => hr x (List.mem_cons_of_mem m hx))
    simp only [List.sum_cons, List.length_cons]
    push_cast
    constructor <;> nlinarith [hms.1, hms.2, hm.1, hm.2]

theorem statsInv_add (a : AggregatedData) (m : Int) (h : StatsInv a)
    (hm1 : -999 ≤ m) (hm2 : m ≤ 999) : StatsInv (a.add_datapoint m) := by
  obtain ⟨h1, h2, h3, h4, h5, h6⟩ := h
  have hG : GoodF a := Or.inr ⟨h1, h2, h3⟩
  have e1 := add_datapoint_min a m hG hm1 hm2
  have e2 := add_datapoint_max a m hG hm1 hm2
  have e3 := add_datapoint_sum a m
  have e4 := add_datapoint_sample_count a m
  refine ⟨by omega, by omega, by omega, by omega, ?_, ?_⟩
  · rw [e1, e3, e4]
    have hmin1 : Min.min a.min m ≤ a.min := min_le_left _ _
    have hmin2 : Min.min a.min m ≤ m := min_le_right _ _
    have hc : (0 : Int) ≤ (a.sample_count : Int) := Int.ofNat_nonneg _
    push_cast
    nlinarith
  · rw [e2, e3, e4]
    have hmax1 : a.max ≤ Max.max a.max m := le_max_left _ _
    have hmax2 : m ≤ Max.max a.max m := le_max_right _ _
    have hc : (0 : Int) ≤ (a.sample_count : Int) := Int.ofNat_nonneg _
    push_cast
    nlinarith

theorem statsInv_first (x : AggregatedData) (m : Int) (hx : freshStats x)
    (hm1 : -999 ≤ m) (hm2 : m ≤ 999) : StatsInv (x.add_datapoint m) := by
  obtain ⟨f1, f2, f3, f4⟩ := hx
  have hG : GoodF x := Or.inl ⟨f1, f2, f3, f4⟩
  have e1 := add_datapoint_min x m hG hm1 hm2
  have e2 := add_datapoint_max x m hG hm1 hm2
  have e3 := add_datapoint_sum x m
  have e4 := add_datapoint_sample_count x m
  rw [f1] at e1
  rw [f2] at e2
  rw [f3] at e3
  rw [f4] at e4
  have e1' : (x.add_datapoint m).min = m := by omega
  have e2' : (x.add_datapoint m).max = m := by omega
  refine ⟨by omega, by omega, by omega, by omega, ?_, ?_⟩
  · rw [e1', e3, e4]
    push_cast
    nlinarith
  · rw [e2', e3, e4]
    push_cast
    nlinarith

theorem statsInv_addAll (x : AggregatedData) (m : Int) (ms : List Int)
    (hx : freshStats x) (hm : -999 ≤ m ∧ m ≤ 999) (hr : InRangeList ms) :
    StatsInv (addAll x (m :: ms)) := by
  rw [addAll_cons]
  have h0 := statsInv_first x m hx hm.1 hm.2
  clear hx
  generalize (x.add_datapoint m) = a at h0
  induction ms generalizing a with
  | nil => exact h0
  | cons m2 ms ih =>
    rw [addAll_cons]
    have hm2 := hr m2 (List.mem_cons_self m2 ms)
    exact ih (fun y hy => hr y (List.mem_cons_of_mem m2 hy)) _
      (statsInv_add _ m2 h0 hm2.1 hm2.2)

/-- C5: for every byte string matching the grammar -?[0-9]\x7b1,2\x7d\.[0-9],
fast_f32_parse_encoded returns the represented decimal value multiplied by
ten (the scaled signed 16-bit integer), as read off the digits by
specDecimalValue. -/
theorem c5_parse_correct (m : List Nat) (h : measGrammar m = true) :
    fast_f32_parse_encoded m = some (specDecimalValue m) :=
  parse_measGrammar m h

/-- Witness for c5_parse_correct: the byte string "-15.7" parses to -157. -/
theorem c5_parse_correct_witness :
    measGrammar [45, 49, 53, 46, 55] = true ∧
    fast_f32_parse_encoded [45, 49, 53, 46, 55] = some (-157) :=
  ⟨by decide, (c5_parse_correct [45, 49, 53, 46, 55] (by decide)).trans (by decide)⟩

/-- C4: on a fresh aggregate or one reflecting at least one prior in-range
datapoint, add_datapoint computes componentwise min, max, sum + m and
count + 1; on a fresh aggregate the first datapoint gives min = max =
sum = m and count = 1. -/
theorem c4_add_datapoint (a : AggregatedData) (m : Int)
    (hm1 : -999 ≤ m) (hm2 : m ≤ 999)
    (h : statsOf a = statsOf defaultAgg ∨
      ∃ ms, ms ≠ [] ∧ InRangeList ms ∧ statsOf a = statsOf (addAll defaultAgg ms)) :
    statsOf (a.add_datapoint m) =
      (Min.min a.min m, Max.max a.max m, a.sum + m, a.sample_count + 1) ∧
    (statsOf a = statsOf defaultAgg →
      statsOf (a.add_datapoint m) = (m, m, m, 1)) := by
  have hG : GoodF a := by
    rcases h with hf | ⟨ms, hne, hr, hrefl⟩
    · obtain ⟨e1, e2, e3, e4⟩ := statsOf_fields _ _ hf
      exact Or.inl ⟨e1, e2, e3, e4⟩
    · match ms, hne, hr, hrefl with
      | m0 :: ms', _, hr, hrefl =>
        have hm0 := hr m0 (List.mem_cons_self m0 ms')
        have hinv := statsInv_addAll defaultAgg m0 ms' defaultAgg_freshStats
          ⟨hm0.1, hm0.2⟩ (fun y hy => hr y (List.mem_cons_of_mem m0 hy))
        obtain ⟨e1, e2, e3, e4⟩ := statsOf_fields _ _ hrefl
        right
        rw [e1, e2]
        exact ⟨hinv.1, hinv.2.1, hinv.2.2.1⟩
  constructor
  · simp only [statsOf, add_datapoint_min a m hG hm1 hm2,
      add_datapoint_max a m hG hm1 hm2, add_datapoint_sum,
      add_datapoint_sample_count]
  · intro hf
    obtain ⟨e1, e2, e3, e4⟩ := statsOf_fields _ _ hf
    simp only [statsOf, add_datapoint_min a m hG hm1 hm2,
      add_datapoint_max a m hG hm1 hm2, add_datapoint_sum,
      add_datapoint_sample_count, e1, e2, e3, e4, Prod.mk.injEq]
    refine ⟨by simp [defaultAgg]; omega, by simp [defaultAgg]; omega,
      by simp [defaultAgg], by simp [defaultAgg]⟩

/-- Witness for c4_add_datapoint: adding 66 to the aggregate reflecting the
single prior datapoint 50. -/
theorem c4_add_datapoint_witness :
    statsOf ((addAll defaultAgg [50]).add_datapoint 66) =
      (Min.min (addAll defaultAgg [50]).min 66,
       Max.max (addAll defaultAgg [50]).max 66,
       (addAll defaultAgg [50]).sum + 66,
       (addAll defaultAgg [50]).sample_count + 1) :=
  (c4_add_datapoint (addAll defaultAgg [50]) 66 (by decide) (by decide)
    (Or.inr ⟨[50], by decide,
      fun m hm => by
        rw [List.eq_of_mem_singleton hm]
        exact ⟨by norm_num, by norm_num⟩,
      rfl⟩)).1

/-- C7 counterexample: an aggregate accumulated from exactly 10^9 in-range
scaled measurements is reachable within the claim's own bound, its u32
denominator sample_count * 10 wraps: it evaluates to 1410065408 instead of
10^10, so the multiplication count * 10 in unsigned 32-bit arithmetic does
wrap for a reachable count. -/
theorem c7_counterexample :
    InRangeList (List.replicate 1000000000 (0 : Int)) ∧
    (List.replicate 1000000000 (0 : Int)).length = 1000000000 ∧
    (addAll defaultAgg (List.replicate 1000000000 (0 : Int))).sample_count =
      1000000000 ∧
    (addAll defaultAgg (List.replicate 1000000000 (0 : Int))).avgDenom =
      1410065408 ∧
    (addAll defaultAgg (List.replicate 1000000000 (0 : Int))).sample_count * 10 =
      10000000000 := by
  have hz : defaultAgg.sample_count = 0 := rfl
  have hcount :
      (addAll defaultAgg (List.replicate 1000000000 (0 : Int))).sample_count =
        1000000000 := by
    rw [addAll_sample_count, List.length_replicate, hz]
  refine ⟨?_, by rw [List.length_replicate], hcount, ?_, by rw [hcount]⟩
  · intro m hm
    rw [List.eq_of_mem_replicate hm]
    exact ⟨by norm_num, by norm_num⟩
  · rw [AggregatedData.avgDenom, hcount]

/-- C7 (amended): for an aggregate accumulated from at most 10^9 in-range
scaled measurements the signed 64-bit sum never overflows, and the u32
multiplication sample_count * 10 does not wrap as long as the count does
not exceed 429496729; at larger reachable counts (counterexample above) it
wraps. -/
theorem c7_sum_no_overflow (ms : List Int) (hr : InRangeList ms)
    (hlen : ms.length ≤ 1000000000) :
    -(2 ^ 63) < (addAll defaultAgg ms).sum ∧
    (addAll defaultAgg ms).sum < 2 ^ 63 ∧
    ((addAll defaultAgg ms).sample_count ≤ 429496729 →
      (addAll defaultAgg ms).avgDenom =
        (addAll defaultAgg ms).sample_count * 10) := by
  have hsum : (addAll defaultAgg ms).sum = ms.sum := by
    rw [addAll_sum]
    simp [defaultAgg]
  have hb := list_sum_bounds ms hr
  have hlen' : (ms.length : Int) ≤ 1000000000 := by exact_mod_cast hlen
  have hlen0 : (0 : Int) ≤ (ms.length : Int) := Int.ofNat_nonneg _
  have h63 : (2 : Int) ^ 63 = 9223372036854775808 := by norm_num
  refine ⟨?_, ?_, ?_⟩
  · rw [hsum, h63]
    nlinarith [hb.1]
  · rw [hsum, h63]
    nlinarith [hb.2]
  · intro hc
    rw [AggregatedData.avgDenom]
    exact Nat.mod_eq_of_lt (by omega)

/-- Witness for c7_sum_no_overflow at the one-element list containing 10. -/
theorem c7_sum_no_overflow_witness :
    -(2 ^ 63) < (addAll defaultAgg [10]).sum ∧
    (addAll defaultAgg [10]).sum < 2 ^ 63 ∧
    ((addAll defaultAgg [10]).sample_count ≤ 429496729 →
      (addAll defaultAgg [10]).avgDenom =
        (addAll defaultAgg [10]).sample_count * 10) :=
  c7_sum_no_overflow [10]
    (fun m hm => by
      rw [List.eq_of_mem_singleton hm]
      exact ⟨by norm_num, by norm_num⟩)
    (by norm_num)

/-! Characterisation of the hot loop on well-formed rows. -/

theorem bytesOf_nil : bytesOf [] = [] := rfl

theorem bytesOf_cons (p : List Nat × List Nat)
    (prs : List (List Nat × List Nat)) :
    bytesOf (p :: prs) = lineOf p ++ bytesOf prs := by
  simp [bytesOf]

theorem lineOf_length (p : List Nat × List Nat) :
    (lineOf p).length = p.1.length + p.2.length + 2 := by
  simp [lineOf]
  omega

theorem loopStep_line (hasher : List Nat → Nat) (bytes : List Nat)
    (consumed : Nat) (table : List AggregatedData) (s ms rest : List Nat)
    (hs3 : MIN_STATION_LEN ≤ s.length) (hs59 : SEMI ∉ s) (hs10 : NL ∉ s)
    (hm : measGrammar ms = true)
    (hdrop : bytes.drop consumed = s ++ SEMI :: (ms ++ NL :: rest)) :
    loopStep hasher bytes consumed table =
      if h : hasher s < table.length then
        .more (consumed + (s.length + ms.length + 2))
          (table.set (hasher s)
            ((table.get ⟨hasher s, h⟩).add_datapoint (specDecimalValue ms)))
      else .abort := by
  have hml := measGrammar_length ms hm
  have hmnl := measGrammar_not_mem ms hm
  have hs3' : 3 ≤ s.length := hs3
  have hlen : consumed < bytes.length := by
    have hl := congrArg List.length hdrop
    rw [List.length_drop] at hl
    simp only [List.length_append, List.length_cons] at hl
    omega
  have hg1 : MIN_STATION_LEN ≤ (s ++ SEMI :: (ms ++ NL :: rest)).length := by
    simp only [MIN_STATION_LEN, List.length_append, List.length_cons]
    omega
  have hdrop3 : (s ++ SEMI :: (ms ++ NL :: rest)).drop MIN_STATION_LEN =
      s.drop 3 ++ SEMI :: (ms ++ NL :: rest) :=
    List.drop_append_of_le_length hs3'
  have hmem1 : SEMI ∉ s.drop 3 := fun hx => hs59 (List.drop_subset _ _ hx)
  have hsemi : memchr SEMI (s.drop 3 ++ SEMI :: (ms ++ NL :: rest)) =
      some (s.length - 3) := by
    rw [memchr_first _ _ _ hmem1, List.length_drop]
  have hd1 : s.length - 3 + MIN_STATION_LEN = s.length := by
    simp only [MIN_STATION_LEN]
    omega
  have hd2 : s.length + 1 + MIN_MEASUREMENT_LEN = s.length + 4 := by
    simp only [MIN_MEASUREMENT_LEN]
  have hg2 : s.length + 4 ≤ (s ++ SEMI :: (ms ++ NL :: rest)).length := by
    simp only [List.length_append, List.length_cons]
    omega
  have hdropSo : (s ++ SEMI :: (ms ++ NL :: rest)).drop (s.length + 4) =
      ms.drop 3 ++ NL :: rest := by
    have e1 : s.length + 4 = (s ++ [SEMI]).length + 3 := by
      simp
    have e2 : s ++ SEMI :: (ms ++ NL :: rest) = (s ++ [SEMI]) ++ (ms ++ NL :: rest) := by
      simp
    rw [e1, e2, List.drop_append, List.drop_append_of_le_length (by omega)]
  have hmem2 : NL ∉ ms.drop 3 := fun hx => hmnl.1 (List.drop_subset _ _ hx)
  have hnl : memchr NL (ms.drop 3 ++ NL :: rest) = some (ms.length - 3) := by
    rw [memchr_first _ _ _ hmem2, List.length_drop]
  have hd3 : ms.length - 3 + (s.length + 4) = s.length + ms.length + 1 := by
    omega
  have hstation : (s ++ SEMI :: (ms ++ NL :: rest)).take s.length = s := by
    rw [List.take_append_of_le_length (le_refl _), List.take_length]
  have htake : (s ++ SEMI :: (ms ++ NL :: rest)).take (s.length + ms.length + 1) =
      s ++ SEMI :: ms := by
    have e1 : s.length + ms.length + 1 = s.length + (ms.length + 1) := by omega
    rw [e1, List.take_append]
    congr 1
    have e2 : SEMI :: (ms ++ NL :: rest) = (SEMI :: ms) ++ NL :: rest := by simp
    have e3 : ms.length + 1 = (SEMI :: ms).length := by simp
    rw [e2, e3, List.take_left]
  have hmeas : (s ++ SEMI :: ms).drop (s.length + 1) = ms := by
    have e1 : s ++ SEMI :: ms = (s ++ [SEMI]) ++ ms := by simp
    have e2 : s.length + 1 = (s ++ [SEMI]).length + 0 := by simp
    rw [e1, e2, List.drop_append, List.drop_zero]
  have hparse := parse_measGrammar ms hm
  have hd4 : consumed + (s.length + ms.length + 1) + 1 =
      consumed + (s.length + ms.length + 2) := by omega
  simp only [loopStep, hdrop, if_pos hlen, if_pos hg1, hdrop3, hsemi, hd1,
    hd2, if_pos hg2, hdropSo, hnl, hd3, hstation, htake, hmeas, hparse, hd4]

theorem processLoop_unfold_abort (hasher : List Nat → Nat) (bytes : List Nat)
    (consumed : Nat) (table : List AggregatedData)
    (h : loopStep hasher bytes consumed table = .abort) :
    processLoop hasher bytes consumed table = none := by
  rw [processLoop]
  split <;> rename_i heq <;> rw [h] at heq
  · exact absurd heq (by simp)
  · exact absurd heq (by simp)

theorem processLoop_unfold_finished (hasher : List Nat → Nat)
    (bytes : List Nat) (consumed : Nat) (table t : List AggregatedData)
    (h : loopStep hasher bytes consumed table = .finished t) :
    processLoop hasher bytes consumed table = some t := by
  rw [processLoop]
  split <;> rename_i heq <;> rw [h] at heq
  · exact absurd heq (by simp)
  · injection heq with h1
    rw [h1]
  · exact absurd heq (by simp)

theorem processLoop_unfold_more (hasher : List Nat → Nat) (bytes : List Nat)
    (consumed : Nat) (table : List AggregatedData) (c' : Nat)
    (t' : List AggregatedData)
    (h : loopStep hasher bytes consumed table = .more c' t') :
    processLoop hasher bytes consumed table =
      processLoop hasher bytes c' t' := by
  rw [processLoop]
  split <;> rename_i heq <;> rw [h] at heq
  · exact absurd heq (by simp)
  · exact absurd heq (by simp)
  · injection heq with h1 h2
    rw [h1, h2]

theorem applyRows_nil (hasher : List Nat → Nat) (t : List AggregatedData) :
    applyRows hasher [] t = some t := rfl

theorem applyRows_cons (hasher : List Nat → Nat) (r : List Nat × Int)
    (rs : List (List Nat × Int)) (t : List AggregatedData) :
    applyRows hasher (r :: rs) t =
      (applyRow hasher t r).bind (applyRows hasher rs) := by
  simp [applyRows, List.foldlM_cons]

theorem rowsOf_nil : rowsOf [] = [] := rfl

theorem rowsOf_cons (p : List Nat × List Nat)
    (prs : List (List Nat × List Nat)) :
    rowsOf (p :: prs) = (p.1, specDecimalValue p.2) :: rowsOf prs := rfl

theorem processLoop_rows (hasher : List Nat → Nat) (bytes : List Nat)
    (prs : List (List Nat × List Nat)) :
    ∀ consumed table, (∀ p ∈ prs, PairOK p) →
    bytes.drop consumed = bytesOf prs →
    processLoop hasher bytes consumed table =
      applyRows hasher (rowsOf prs) table := by
  induction prs with
  | nil =>
    intro consumed table _ hdrop
    rw [bytesOf_nil] at hdrop
    have hle : bytes.length ≤ consumed := by
      have hl := congrArg List.length hdrop
      rw [List.length_drop] at hl
      simp only [List.length_nil] at hl
      omega
    have hstep : loopStep hasher bytes consumed table = .finished table := by
      simp only [loopStep, if_neg (by omega : ¬consumed < bytes.length)]
    rw [processLoop_unfold_finished _ _ _ _ _ hstep, rowsOf_nil, applyRows_nil]
  | cons p prs ih =>
    intro consumed table hok hdrop
    obtain ⟨hp1, hp2, hp3, hp4⟩ := hok p (List.mem_cons_self p prs)
    rw [bytesOf_cons] at hdrop
    have hdrop' : bytes.drop consumed = p.1 ++ SEMI :: (p.2 ++ NL :: bytesOf prs) := by
      rw [hdrop]
      simp [lineOf]
    have hstep := loopStep_line hasher bytes consumed table p.1 p.2
      (bytesOf prs) hp1 hp2 hp3 hp4 hdrop'
    have hdrop2 : bytes.drop (consumed + (p.1.length + p.2.length + 2)) =
        bytesOf prs := by
      have e1 : consumed + (p.1.length + p.2.length + 2) =
          consumed + (lineOf p).length := by
        rw [lineOf_length]
      rw [e1, ← List.drop_drop, hdrop]
      have e2 : (lineOf p).length = (lineOf p).length + 0 := by omega
      rw [e2, List.drop_append, List.drop_zero]
    by_cases hidx : hasher p.1 < table.length
    · rw [dif_pos hidx] at hstep
      rw [processLoop_unfold_more _ _ _ _ _ _ hstep]
      rw [ih _ _ (fun q hq => hok q (List.mem_cons_of_mem _ hq)) hdrop2]
      rw [rowsOf_cons, applyRows_cons]
      simp only [applyRow, dif_pos hidx, Option.some_bind]
    · rw [dif_neg hidx] at hstep
      rw [processLoop_unfold_abort _ _ _ _ hstep]
      rw [rowsOf_cons, applyRows_cons]
      simp only [applyRow, dif_neg hidx, Option.none_bind]

theorem lineOf_getLast (p : List Nat × List Nat) :
    (lineOf p).getLast? = some NL := by
  have e : lineOf p = (p.1 ++ SEMI :: p.2) ++ [NL] := by
    simp [lineOf]
  rw [e, List.getLast?_concat]

theorem bytesOf_getLast (p : List Nat × List Nat)
    (prs : List (List Nat × List Nat)) :
    (bytesOf (p :: prs)).getLast? = some NL := by
  induction prs generalizing p with
  | nil =>
    rw [bytesOf_cons, bytesOf_nil, List.append_nil, lineOf_getLast]
  | cons q prs ih =>
    rw [bytesOf_cons, List.getLast?_append, ih q]
    rfl

theorem bytesOf_cons_ne_nil (p : List Nat × List Nat)
    (prs : List (List Nat × List Nat)) : bytesOf (p :: prs) ≠ [] := by
  rw [bytesOf_cons]
  simp [lineOf]

theorem processFileChunk_rows (hasher : List Nat → Nat)
    (table : List AggregatedData) (prs : List (List Nat × List Nat))
    (hne : prs ≠ []) (hok : ∀ p ∈ prs, PairOK p) :
    processFileChunk hasher table (bytesOf prs) =
      applyRows hasher (rowsOf prs) table := by
  match prs, hne with
  | p :: prs', _ =>
    unfold processFileChunk
    rw [if_neg (bytesOf_cons_ne_nil p prs'), if_pos (bytesOf_getLast p prs')]
    exact processLoop_rows hasher _ (p :: prs') 0 table hok (List.drop_zero _)

theorem processLoopFuel_mono (hasher : List Nat → Nat) (bytes : List Nat) :
    ∀ fuel fuel' consumed table r, fuel ≤ fuel' →
    processLoopFuel hasher bytes fuel consumed table = some r →
    processLoopFuel hasher bytes fuel' consumed table = some r := by
  intro fuel
  induction fuel with
  | zero =>
    intro fuel' consumed table r _ h0
    cases fuel' with
    | zero => exact h0
    | succ fuel' =>
      simp only [processLoopFuel] at h0 ⊢
      cases hstep : loopStep hasher bytes consumed table with
      | abort => rw [hstep] at h0; exact h0
      | finished t => rw [hstep] at h0; exact h0
      | more c' t' => rw [hstep] at h0; exact absurd h0 (by simp)
  | succ fuel ih =>
    intro fuel' consumed table r hle h0
    cases fuel' with
    | zero => omega
    | succ fuel' =>
      simp only [processLoopFuel] at h0 ⊢
      cases hstep : loopStep hasher bytes consumed table with
      | abort => rw [hstep] at h0; exact h0
      | finished t => rw [hstep] at h0; exact h0
      | more c' t' =>
        rw [hstep] at h0
        exact ih fuel' c' t' r (by omega) h0

theorem processLoopFuel_exact (hasher : List Nat → Nat) (bytes : List Nat) :
    ∀ n consumed table, bytes.length - consumed ≤ n →
    processLoopFuel hasher bytes n consumed table =
      some (processLoop hasher bytes consumed table) := by
  intro n
  induction n with
  | zero =>
    intro consumed table hn
    have hge : bytes.length ≤ consumed := by omega
    have hstep : loopStep hasher bytes consumed table = .finished table := by
      simp only [loopStep, if_neg (by omega : ¬consumed < bytes.length)]
    simp only [processLoopFuel, hstep,
      processLoop_unfold_finished hasher bytes consumed table table hstep]
  | succ n ih =>
    intro consumed table hn
    cases hstep : loopStep hasher bytes consumed table with
    | abort =>
      simp only [processLoopFuel, hstep,
        processLoop_unfold_abort hasher bytes consumed table hstep]
    | finished t =>
      simp only [processLoopFuel, hstep,
        processLoop_unfold_finished hasher bytes consumed table t hstep]
    | more c' t' =>
      have hinc := loopStep_more_increases hasher bytes consumed table c' t' hstep
      simp only [processLoopFuel, hstep,
        processLoop_unfold_more hasher bytes consumed table c' t' hstep]
      exact ih c' t' (by omega)

/-- C9: the per-chunk processing loop terminates.  Every iteration that
continues strictly increases the consumed-byte cursor (first conjunct), and
consequently the loop reaches a verdict — a table or an abort — within
bytes.length iterations (second conjunct: the loop run with fuel
bytes.length never exhausts its fuel and computes exactly the value of the
unbounded loop).  This holds for every chunk and every hash function; the
preconditions of the claim are not even needed for termination. -/
theorem c9_loop_terminates (hasher : List Nat → Nat) (bytes : List Nat) :
    (∀ consumed table c' t',
      loopStep hasher bytes consumed table = .more c' t' →
      consumed < bytes.length ∧ consumed < c') ∧
    (∀ table, processLoopFuel hasher bytes bytes.length 0 table =
      some (processLoop hasher bytes 0 table)) := by
  constructor
  · intro consumed table c' t' h
    exact loopStep_more_increases hasher bytes consumed table c' t' h
  · intro table
    exact processLoopFuel_exact hasher bytes bytes.length 0 table (by omega)

/-! Characterisation of the chunk iterator. -/

theorem getLast?_take (l : List Nat) (i : Nat) (h : i < l.length) :
    (l.take (i + 1)).getLast? = l[i]? := by
  rw [List.getLast?_eq_getElem?, List.length_take]
  have e1 : Min.min (i + 1) l.length = i + 1 := by omega
  rw [e1]
  simp only [Nat.add_sub_cancel, List.getElem?_take, if_pos (by omega : i < i + 1)]

theorem getLast?_drop (l : List Nat) (k : Nat) (h : k < l.length) :
    (l.drop k).getLast? = l.getLast? := by
  rw [List.getLast?_eq_getElem?, List.getLast?_eq_getElem?, List.length_drop,
    List.getElem?_drop]
  congr 1
  omega

theorem mem_of_getElem? {α : Type} (l : List α) (i : Nat) (x : α)
    (h : l[i]? = some x) : x ∈ l := by
  obtain ⟨hlt, he⟩ := List.getElem?_eq_some.mp h
  exact he ▸ List.getElem_mem hlt

theorem chunkIter_next_spec (it : ChunkIter)
    (hbpc : 1 ≤ it.bytes_per_chunk)
    (hleft : it.consumed_bytes < it.file_bytes.length)
    (hlast : it.file_bytes.getLast? = some NL) :
    ∃ e, it.next = .item ((it.file_bytes.take (e + 1)).drop it.consumed_bytes)
        { it with consumed_bytes := e + 1 } ∧
      it.consumed_bytes ≤ e ∧ e < it.file_bytes.length ∧
      it.file_bytes[e]? = some NL ∧
      Min.min it.bytes_per_chunk (it.file_bytes.length - it.consumed_bytes) ≤
        e + 1 - it.consumed_bytes := by
  set L := it.file_bytes.length with hL
  set left := L - it.consumed_bytes with hleftdef
  have hleft1 : 1 ≤ left := by omega
  have hmin1 : 1 ≤ Min.min it.bytes_per_chunk left := by omega
  set iem := it.consumed_bytes + Min.min it.bytes_per_chunk left - 1 with hiem
  have hiem1 : it.consumed_bytes ≤ iem := by omega
  have hiem2 : iem < L := by omega
  have hmem : NL ∈ it.file_bytes.drop iem := by
    have h1 : (it.file_bytes.drop iem).getLast? = some NL := by
      rw [getLast?_drop _ _ (by omega), hlast]
    have h2 : it.file_bytes.drop iem ≠ [] := by
      intro hnil
      rw [hnil] at h1
      exact absurd h1 (by simp)
    have h3 := List.getLast?_eq_getElem? (it.file_bytes.drop iem)
    rw [h1] at h3
    exact mem_of_getElem? _ _ _ h3.symm
  obtain ⟨pos, hpos⟩ := memchr_isSome_of_mem NL _ hmem
  obtain ⟨hposlt, hposget⟩ := memchr_some NL _ pos hpos
  rw [List.getElem?_drop] at hposget
  rw [List.length_drop] at hposlt
  refine ⟨pos + iem, ?_, by omega, by omega, by rw [← hposget]; congr 1; omega, ?_⟩
  · have hchunklen :
        ((it.file_bytes.take (pos + iem + 1)).drop it.consumed_bytes).length =
          pos + iem + 1 - it.consumed_bytes := by
      rw [List.length_drop, List.length_take]
      omega
    simp only [ChunkIter.next, ← hL, ← hleftdef, if_neg (by omega : ¬left = 0),
      ← hiem, hpos]
    rw [hchunklen]
    have e2 : it.consumed_bytes + (pos + iem + 1 - it.consumed_bytes) =
        pos + iem + 1 := by omega
    rw [e2]
  · omega

theorem flatten_getLast (css : List (List Nat))
    (h : ∀ c ∈ css, c ≠ [] ∧ c.getLast? = some NL) (hne : css ≠ []) :
    css.flatten.getLast? = some NL := by
  induction css with
  | nil => exact absurd rfl hne
  | cons c css ih =>
    cases css with
    | nil =>
      simp only [List.flatten_cons, List.flatten_nil, List.append_nil]
      exact (h c (List.mem_cons_self c [])).2
    | cons c2 css2 =>
      rw [List.flatten_cons, List.getLast?_append,
        ih (fun x hx => h x (List.mem_cons_of_mem c hx)) (by simp)]
      rfl

theorem collectChunks_spec (B : List Nat) (bpc : Nat) (hbpc : 1 ≤ bpc)
    (hlast : B.getLast? = some NL) :
    ∀ n consumed, B.length - consumed ≤ n → consumed ≤ B.length →
    ∃ cs, ChunkIter.collectChunks ⟨bpc, B, consumed⟩ n = some cs ∧
      cs.flatten = B.drop consumed ∧
      (∀ c ∈ cs, c ≠ [] ∧ c.getLast? = some NL) ∧
      (B.length - consumed = 0 → cs = []) ∧
      (0 < B.length - consumed →
        cs ≠ [] ∧ bpc * (cs.length - 1) < B.length - consumed) := by
  intro n
  induction n with
  | zero =>
    intro consumed hn hc
    have hdone : (ChunkIter.next ⟨bpc, B, consumed⟩) = .done := by
      simp only [ChunkIter.next, if_pos (by omega : B.length - consumed = 0)]
    refine ⟨[], by simp [ChunkIter.collectChunks, hdone], ?_, by simp, by simp,
      by omega⟩
    rw [List.flatten_nil, Eq.comm, List.drop_eq_nil_iff]
    omega
  | succ n ih =>
    intro consumed hn hc
    by_cases hzero : B.length - consumed = 0
    · have hdone : (ChunkIter.next ⟨bpc, B, consumed⟩) = .done := by
        simp only [ChunkIter.next, if_pos hzero]
      refine ⟨[], by simp [ChunkIter.collectChunks, hdone], ?_, by simp,
        by simp, by omega⟩
      rw [List.flatten_nil, Eq.comm, List.drop_eq_nil_iff]
      omega
    · obtain ⟨e, hnext, he1, he2, he3, he4⟩ :=
        chunkIter_next_spec ⟨bpc, B, consumed⟩ hbpc (by simp; omega) hlast
      simp only at hnext he1 he2 he3 he4
      obtain ⟨cs', hcoll', hflat', hmem', hnil', hpos'⟩ :=
        ih (e + 1) (by omega) (by omega)
      have hchunk : ((B.take (e + 1)).drop consumed) ≠ [] := by
        intro hn0
        have := congrArg List.length hn0
        rw [List.length_drop, List.length_take] at this
        simp only [List.length_nil] at this
        omega
      have hchunklast : ((B.take (e + 1)).drop consumed).getLast? = some NL := by
        rw [getLast?_drop _ _ (by rw [List.length_take]; omega),
          getLast?_take _ _ (by omega), he3]
      refine ⟨(B.take (e + 1)).drop consumed :: cs', ?_, ?_, ?_, by omega, ?_⟩
      · simp only [ChunkIter.collectChunks, hnext, hcoll', Option.map_some']
      · rw [List.flatten_cons, hflat']
        conv_rhs => rw [← List.take_append_drop (e + 1) B]
        rw [List.drop_append_of_le_length (by rw [List.length_take]; omega)]
      · intro c hc2
        rcases List.mem_cons.mp hc2 with rfl | hmemc
        · exact ⟨hchunk, hchunklast⟩
        · exact hmem' c hmemc
      · intro _
        refine ⟨by simp, ?_⟩
        have hclen : ((B.take (e + 1)).drop consumed).length =
            e + 1 - consumed := by
          rw [List.length_drop, List.length_take]
          omega
        simp only [List.length_cons, Nat.add_sub_cancel]
        by_cases hcs' : cs' = []
        · subst hcs'
          simp only [List.length_nil, Nat.mul_zero]
          omega
        · have hlpos : 0 < B.length - (e + 1) := by
            by_contra hcon
            exact hcs' (hnil' (by omega))
          obtain ⟨_, hcount⟩ := hpos' hlpos
          have hk : cs'.length = (cs'.length - 1) + 1 := by
            cases cs' with
            | nil => exact absurd rfl hcs'
            | cons _ _ => simp
          rw [hk, Nat.mul_succ]
          have hminle := he4
          rcases le_or_lt (B.length - consumed) bpc with hsm | hbig
          · have : Min.min bpc (B.length - consumed) = B.length - consumed := by
              omega
            omega
          · have : Min.min bpc (B.length - consumed) = bpc := by omega
            omega

/-- C3: for every byte slice B ending in a newline and every chunk count
N ≥ 1, the chunk iterator yields at most N chunks whose concatenation is
exactly B; every chunk is non-empty and ends with a newline (hence contains
at least one complete line, as it also starts at a line boundary), and
every chunk after the first starts immediately after a newline byte of B. -/
theorem c3_chunk_iter (B : List Nat) (N : Nat) (hN : 1 ≤ N) (hne : B ≠ [])
    (hlast : B.getLast? = some NL) :
    ∃ cs, (ChunkIter.new B N).collectChunks B.length = some cs ∧
      cs.length ≤ N ∧ cs.flatten = B ∧
      (∀ c ∈ cs, c ≠ [] ∧ c.getLast? = some NL ∧ NL ∈ c) ∧
      (∀ k, 0 < k → k < cs.length →
        B[(cs.take k).flatten.length - 1]? = some NL) := by
  have hlen1 : 1 ≤ B.length := by
    cases B with
    | nil => exact absurd rfl hne
    | cons _ _ => simp
  set bpc := (B.length + N - 1) / N with hbpcdef
  have hbpc : 1 ≤ bpc := by
    rw [hbpcdef, Nat.le_div_iff_mul_le (by omega : 0 < N)]
    omega
  have hdm := Nat.div_add_mod (B.length + N - 1) N
  have hmod : (B.length + N - 1) % N < N := Nat.mod_lt _ (by omega)
  have hNbpc : B.length ≤ N * bpc := by
    rw [hbpcdef]
    omega
  have hnew : ChunkIter.new B N = ⟨bpc, B, 0⟩ := rfl
  obtain ⟨cs, hcoll, hflat, hmem, _, hposcl⟩ :=
    collectChunks_spec B bpc hbpc hlast B.length 0 (by omega) (by omega)
  rw [List.drop_zero] at hflat
  obtain ⟨hcsne, hcount⟩ := hposcl (by omega)
  have hcle : cs.length ≤ N := by
    have h1 : bpc * (cs.length - 1) < bpc * N := by
      calc bpc * (cs.length - 1) < B.length := hcount
      _ ≤ N * bpc := hNbpc
      _ = bpc * N := Nat.mul_comm _ _
    have h2 : cs.length - 1 < N := Nat.lt_of_mul_lt_mul_left h1
    omega
  refine ⟨cs, by rw [hnew]; exact hcoll, hcle, hflat, ?_, ?_⟩
  · intro c hc
    obtain ⟨h1, h2⟩ := hmem c hc
    refine ⟨h1, h2, ?_⟩
    have h3 := List.getLast?_eq_getElem? c
    rw [h2] at h3
    exact mem_of_getElem? _ _ _ h3.symm
  · intro k hk1 hk2
    set F := (cs.take k).flatten with hF
    have htk : cs.take k ≠ [] := by
      intro h0
      have := congrArg List.length h0
      rw [List.length_take] at this
      simp only [List.length_nil] at this
      omega
    have hFlast : F.getLast? = some NL := by
      rw [hF]
      exact flatten_getLast _ (fun c hc => hmem c (List.mem_of_mem_take hc)) htk
    have hFne : F ≠ [] := by
      intro h0
      rw [h0] at hFlast
      exact absurd hFlast (by simp)
    have hsplit : B = F ++ (cs.drop k).flatten := by
      rw [hF, ← List.flatten_append, List.take_append_drop, hflat]
    rw [hsplit, List.getElem?_append_left (by
      have h1F : 0 < F.length := List.length_pos.mpr hFne
      omega)]
    rw [← List.getLast?_eq_getElem?]
    exact hFlast

/-- Witness for c3_chunk_iter: the four-byte input "a\nb\n" split into two
chunks. -/
theorem c3_chunk_iter_witness :
    ∃ cs, (ChunkIter.new [97, 10, 98, 10] 2).collectChunks
        ([97, 10, 98, 10] : List Nat).length = some cs ∧
      cs.length ≤ 2 ∧ cs.flatten = [97, 10, 98, 10] ∧
      (∀ c ∈ cs, c ≠ [] ∧ c.getLast? = some NL ∧ NL ∈ c) ∧
      (∀ k, 0 < k → k < cs.length →
        ([97, 10, 98, 10] : List Nat)[(cs.take k).flatten.length - 1]? =
          some NL) :=
  c3_chunk_iter [97, 10, 98, 10] 2 (by decide) (by decide) (by decide)

/-- C10: on a zero-byte input the core aborts before emitting any output.
The chunk iterator over an empty byte slice immediately reports completion,
so the unwrap() on the first chunk in process_multi_threaded panics, and
process_file_chunk itself rejects an empty chunk through its leading
assertion (modelled as the none result); an empty result line is never
printed. -/
theorem c10_empty_input :
    (∀ n, (ChunkIter.new [] n).next = NextResult.done) ∧
    (∀ (hasher : List Nat → Nat) (table : List AggregatedData),
      processFileChunk hasher table [] = none) := by
  constructor
  · intro n
    simp [ChunkIter.new, ChunkIter.next]
  · intro hasher table
    rfl

/-! Slotwise characterisation of table updates, init and reduce. -/

theorem slotMeas_nil (hasher : List Nat → Nat) (i : Nat) :
    slotMeas hasher i [] = [] := rfl

theorem slotMeas_cons (hasher : List Nat → Nat) (i : Nat)
    (r : List Nat × Int) (rs : List (List Nat × Int)) :
    slotMeas hasher i (r :: rs) =
      if hasher r.1 = i then r.2 :: slotMeas hasher i rs
      else slotMeas hasher i rs := rfl

theorem slotMeas_append (hasher : List Nat → Nat) (i : Nat)
    (rs1 rs2 : List (List Nat × Int)) :
    slotMeas hasher i (rs1 ++ rs2) =
      slotMeas hasher i rs1 ++ slotMeas hasher i rs2 := by
  induction rs1 with
  | nil => rfl
  | cons r rs ih =>
    rw [List.cons_append, slotMeas_cons, slotMeas_cons, ih]
    split_ifs <;> rfl

theorem slotMeas_mem (hasher : List Nat → Nat) (i : Nat)
    (rs : List (List Nat × Int)) (m : Int) (h : m ∈ slotMeas hasher i rs) :
    ∃ r ∈ rs, r.2 = m := by
  induction rs with
  | nil => exact absurd h (by simp [slotMeas_nil])
  | cons r rs ih =>
    rw [slotMeas_cons] at h
    split_ifs at h
    · rcases List.mem_cons.mp h with rfl | hm
      · exact ⟨r, List.mem_cons_self r rs, rfl⟩
      · obtain ⟨q, hq1, hq2⟩ := ih hm
        exact ⟨q, List.mem_cons_of_mem r hq1, hq2⟩
    · obtain ⟨q, hq1, hq2⟩ := ih h
      exact ⟨q, List.mem_cons_of_mem r hq1, hq2⟩

theorem slotMeas_rowsOf_inRange (hasher : List Nat → Nat) (i : Nat)
    (prs : List (List Nat × List Nat)) (hok : ∀ p ∈ prs, PairOK p) :
    InRangeList (slotMeas hasher i (rowsOf prs)) := by
  intro m hm
  obtain ⟨r, hr1, hr2⟩ := slotMeas_mem hasher i _ m hm
  obtain ⟨p, hp1, hp2⟩ := List.mem_map.mp hr1
  have := specDecimalValue_range p.2 (hok p hp1).2.2.2
  rw [← hr2, ← hp2]
  exact this

theorem applyRows_slots (hasher : List Nat → Nat) (rs : List (List Nat × Int)) :
    ∀ t : List AggregatedData, (∀ r ∈ rs, hasher r.1 < t.length) →
    ∃ t', applyRows hasher rs t = some t' ∧ t'.length = t.length ∧
      (∀ i, t'[i]? = (t[i]?).map (fun a => addAll a (slotMeas hasher i rs))) := by
  induction rs with
  | nil =>
    intro t _
    refine ⟨t, applyRows_nil hasher t, rfl, ?_⟩
    intro i
    rw [slotMeas_nil]
    cases t[i]? <;> rfl
  | cons r rs ih =>
    intro t hin
    have hidx := hin r (List.mem_cons_self r rs)
    rw [applyRows_cons]
    simp only [applyRow, dif_pos hidx, Option.bind_some]
    obtain ⟨t', h1, h2, h3⟩ := ih (t.set (hasher r.1)
      ((t.get ⟨hasher r.1, hidx⟩).add_datapoint r.2))
      (fun q hq => by
        rw [List.length_set]
        exact hin q (List.mem_cons_of_mem _ hq))
    refine ⟨t', h1, by rw [h2, List.length_set], ?_⟩
    intro i
    rw [h3 i, slotMeas_cons, List.getElem?_set]
    by_cases hcase : hasher r.1 = i
    · rw [if_pos hcase, if_pos (by omega : hasher r.1 < t.length),
        if_pos hcase, ← hcase, List.getElem?_eq_getElem hidx,
        Option.map_some', Option.map_some', addAll_cons]
      rw [List.get_eq_getElem]
    · rw [if_neg hcase, if_neg hcase]

theorem initLoop_spec (hasher : List Nat → Nat) (M : List (List Nat)) :
    ∀ t : List AggregatedData, M.Nodup →
    (∀ s1 ∈ M, ∀ s2 ∈ M, hasher s1 = hasher s2 → s1 = s2) →
    (∀ s ∈ M, hasher s < t.length) →
    (∀ s ∈ M, (t[hasher s]?).map AggregatedData.name = some []) →
    ∃ T, initLoop hasher M t = some T ∧ T.length = t.length ∧
      (∀ s ∈ M, T[hasher s]? =
        (t[hasher s]?).map (fun a => { a with name := s })) ∧
      (∀ i, (∀ s ∈ M, hasher s ≠ i) → T[i]? = t[i]?) := by
  induction M with
  | nil =>
    intro t _ _ _ _
    exact ⟨t, rfl, rfl, fun s hs => absurd hs (by simp), fun i _ => rfl⟩
  | cons s M ih =>
    intro t hnd hinj hlt hname
    have hs := hlt s (List.mem_cons_self s M)
    have hnames : (t.get ⟨hasher s, hs⟩).name = [] := by
      have h0 := hname s (List.mem_cons_self s M)
      rw [List.getElem?_eq_getElem hs] at h0
      simp only [Option.map_some', Option.some.injEq] at h0
      rw [List.get_eq_getElem]
      exact h0
    simp only [initLoop, dif_pos hs, if_pos hnames]
    have hnd' := (List.nodup_cons.mp hnd).2
    have hsnotin := (List.nodup_cons.mp hnd).1
    have hinj' : ∀ s1 ∈ M, ∀ s2 ∈ M, hasher s1 = hasher s2 → s1 = s2 :=
      fun s1 h1 s2 h2 he => hinj s1 (List.mem_cons_of_mem _ h1) s2
        (List.mem_cons_of_mem _ h2) he
    have hsfresh : ∀ q ∈ M, hasher s ≠ hasher q := by
      intro q hq heq
      exact hsnotin (hinj s (List.mem_cons_self s M) q
        (List.mem_cons_of_mem _ hq) heq ▸ hq)
    obtain ⟨T, h1, h2, h3, h4⟩ := ih
      (t.set (hasher s) { t.get ⟨hasher s, hs⟩ with name := s }) hnd' hinj'
      (fun q hq => by
        rw [List.length_set]
        exact hlt q (List.mem_cons_of_mem _ hq))
      (fun q hq => by
        rw [List.getElem?_set, if_neg (hsfresh q hq)]
        exact hname q (List.mem_cons_of_mem _ hq))
    refine ⟨T, h1, by rw [h2, List.length_set], ?_, ?_⟩
    · intro q hq
      rcases List.mem_cons.mp hq with rfl | hqm
      · rw [h4 (hasher q) (fun x hx he => hsfresh x hx he.symm),
          List.getElem?_set, if_pos rfl, if_pos hs,
          List.getElem?_eq_getElem hs, Option.map_some']
        rw [List.get_eq_getElem]
      · rw [h3 q hqm, List.getElem?_set, if_neg (hsfresh q hqm)]
    · intro i hni
      rw [h4 i (fun q hq => hni q (List.mem_cons_of_mem _ hq)),
        List.getElem?_set, if_neg (hni s (List.mem_cons_self s M))]

theorem combineFold_spec (hasher : List Nat → Nat) :
    ∀ (es : List AggregatedData) (off : Nat) (comb : List AggregatedData),
    comb.length = STATIONS_IN_DATASET →
    off + es.length ≤ STATIONS_IN_DATASET →
    (∀ j (hj : j < es.length), hasher ((es.get ⟨j, hj⟩).name) = off + j) →
    ∃ comb', es.foldlM (combineElem hasher) comb = some comb' ∧
      comb'.length = comb.length ∧
      (∀ i, i < off ∨ off + es.length ≤ i → comb'[i]? = comb[i]?) ∧
      (∀ j (hj : j < es.length),
        comb'[off + j]? = (comb[off + j]?).map (fun c =>
          (if c.name = [] then { c with name := (es.get ⟨j, hj⟩).name }
           else c).merge (es.get ⟨j, hj⟩))) := by
  intro es
  induction es with
  | nil =>
    intro off comb hlen hoff _
    exact ⟨comb, rfl, rfl, fun i _ => rfl, fun j hj => absurd hj (by simp)⟩
  | cons e es ih =>
    intro off comb hlen hoff hnames
    have hhead : hasher e.name = off := by
      have := hnames 0 (by simp)
      simpa using this
    have hofflt : off < comb.length := by
      simp only [List.length_cons] at hoff
      omega
    rw [List.foldlM_cons]
    simp only [combineElem, hhead, dif_pos hofflt, Option.bind_eq_bind,
      Option.some_bind]
    obtain ⟨comb', h1, h2, h3, h4⟩ := ih (off + 1)
      (comb.set off ((if (comb.get ⟨off, hofflt⟩).name = []
        then { comb.get ⟨off, hofflt⟩ with name := e.name }
        else comb.get ⟨off, hofflt⟩).merge e))
      (by rw [List.length_set]; exact hlen)
      (by
        have hoff2 : off + (e :: es).length ≤ STATIONS_IN_DATASET := hoff
        rw [List.length_cons] at hoff2
        omega)
      (fun j hj => by
        have := hnames (j + 1) (by simp; omega)
        simp only [List.get_cons_succ] at this
        rw [this]
        omega)
    refine ⟨comb', h1, by rw [h2, List.length_set], ?_, ?_⟩
    · intro i hi
      rw [List.length_cons] at hi
      have hi' : i < off + 1 ∨ off + 1 + es.length ≤ i := by omega
      rw [h3 i hi', List.getElem?_set, if_neg (by omega : ¬off = i)]
    · intro j hj
      cases j with
      | zero =>
        rw [Nat.add_zero, h3 off (Or.inl (by omega)), List.getElem?_set,
          if_pos rfl, if_pos hofflt, List.getElem?_eq_getElem hofflt,
          Option.map_some']
        rfl
      | succ j =>
        have hj' : j < es.length := by
          simp only [List.length_cons] at hj
          omega
        have he : off + (j + 1) = off + 1 + j := by omega
        rw [he, h4 j hj', List.getElem?_set, if_neg (by omega : ¬off = off + 1 + j)]
        simp only [List.get_cons_succ]

theorem getD_eq_get (l : List AggregatedData) (j : Nat) (hj : j < l.length)
    (d : AggregatedData) : l.getD j d = l.get ⟨j, hj⟩ := by
  rw [List.getD_eq_getElem?_getD, List.getElem?_eq_getElem hj]
  rw [List.get_eq_getElem]
  rfl

theorem finalize_outer_spec (hasher : List Nat → Nat) (nm : Nat → List Nat)
    (hnm : ∀ i, i < STATIONS_IN_DATASET → hasher (nm i) = i) :
    ∀ (tables : List (List AggregatedData)) (comb : List AggregatedData),
    comb.length = STATIONS_IN_DATASET →
    (∀ tbl ∈ tables, tbl.length = STATIONS_IN_DATASET) →
    (∀ tbl ∈ tables, ∀ j (hj : j < tbl.length), (tbl.get ⟨j, hj⟩).name = nm j) →
    ∃ C, tables.foldlM (fun comb tbl => tbl.foldlM (combineElem hasher) comb)
        comb = some C ∧
      C.length = STATIONS_IN_DATASET ∧
      ∀ j, j < STATIONS_IN_DATASET →
        C[j]? = (comb[j]?).map (fun c => tables.foldl
          (fun acc tbl => (if acc.name = [] then { acc with name := nm j }
            else acc).merge (tbl.getD j defaultAgg)) c) := by
  intro tables
  induction tables with
  | nil =>
    intro comb hlen _ _
    refine ⟨comb, rfl, hlen, ?_⟩
    intro j _
    simp only [List.foldl_nil]
    cases comb[j]? <;> rfl
  | cons tbl tables ih =>
    intro comb hlen htl hnames
    have htbl : tbl.length = STATIONS_IN_DATASET :=
      htl tbl (List.mem_cons_self tbl tables)
    have hinnames : ∀ j (hj : j < tbl.length),
        hasher ((tbl.get ⟨j, hj⟩).name) = 0 + j := by
      intro j hj
      rw [hnames tbl (List.mem_cons_self tbl tables) j hj,
        hnm j (by omega)]
      omega
    obtain ⟨comb1, hc1, hc2, _, hc4⟩ := combineFold_spec hasher tbl 0 comb
      hlen (by omega) hinnames
    rw [List.foldlM_cons]
    simp only [hc1, Option.bind_eq_bind, Option.some_bind]
    obtain ⟨C, h1, h2, h3⟩ := ih comb1 (by rw [hc2]; exact hlen)
      (fun x hx => htl x (List.mem_cons_of_mem _ hx))
      (fun x hx => hnames x (List.mem_cons_of_mem _ hx))
    refine ⟨C, h1, h2, ?_⟩
    intro j hj
    have hj' : j < tbl.length := by omega
    have hj0 : (0 : Nat) + j = j := by omega
    have hc4' := hc4 j hj'
    rw [hj0] at hc4'
    rw [h3 j hj, hc4', Option.map_map]
    simp only [List.foldl_cons]
    cases hcj : comb[j]? with
    | none => rfl
    | some c =>
      simp only [Option.map_some', Function.comp_apply]
      congr 1
      rw [hnames tbl (List.mem_cons_self tbl tables) j hj',
        getD_eq_get tbl j hj' defaultAgg]

theorem foldl_merge_name (j : Nat) (X : AggregatedData) :
    ∀ ts : List (List AggregatedData),
    (ts.foldl (fun acc tbl => acc.merge (tbl.getD j defaultAgg)) X).name =
      X.name := by
  intro ts
  induction ts generalizing X with
  | nil => rfl
  | cons t ts ih =>
    rw [List.foldl_cons, ih, merge_name]

theorem raw_fold_clean (nm : Nat → List Nat) (j : Nat) :
    ∀ (tables : List (List AggregatedData)), tables ≠ [] →
    tables.foldl (fun acc tbl =>
        (if acc.name = [] then { acc with name := nm j } else acc).merge
          (tbl.getD j defaultAgg)) defaultAgg =
      tables.foldl (fun acc tbl => acc.merge (tbl.getD j defaultAgg))
        { defaultAgg with name := nm j } := by
  have haux : ∀ (ts : List (List AggregatedData)) (acc : AggregatedData),
      acc.name = nm j →
      ts.foldl (fun acc tbl =>
        (if acc.name = [] then { acc with name := nm j } else acc).merge
          (tbl.getD j defaultAgg)) acc =
      ts.foldl (fun acc tbl => acc.merge (tbl.getD j defaultAgg)) acc := by
    intro ts
    induction ts with
    | nil => intro acc _; rfl
    | cons t ts ih =>
      intro acc hacc
      rw [List.foldl_cons, List.foldl_cons]
      have hstep : (if acc.name = [] then { acc with name := nm j } else acc) =
          acc := by
        by_cases hcase : acc.name = []
        · rw [if_pos hcase]
          ext
          · rfl
          · rfl
          · rfl
          · rfl
          · rw [← hacc, hcase]
        · rw [if_neg hcase]
      rw [hstep]
      exact ih _ (by rw [merge_name, hacc])
  intro tables hne
  match tables, hne with
  | t :: ts, _ =>
    rw [List.foldl_cons, List.foldl_cons]
    have hfirst : (if defaultAgg.name = [] then
        { defaultAgg with name := nm j } else defaultAgg) =
        { defaultAgg with name := nm j } := by
      rw [if_pos (show defaultAgg.name = [] from rfl)]
    rw [hfirst]
    exact haux ts _ (by rw [merge_name])

theorem inRangeList_append (ms1 ms2 : List Int) (h1 : InRangeList ms1)
    (h2 : InRangeList ms2) : InRangeList (ms1 ++ ms2) := by
  intro m hm
  rcases List.mem_append.mp hm with h | h
  · exact h1 m h
  · exact h2 m h

theorem foldl_merge_addAll (X : AggregatedData) (hx : freshStats X) :
    ∀ (mss : List (List Int)) (ms0 : List Int), InRangeList ms0 →
    (∀ ms ∈ mss, InRangeList ms) →
    List.foldl AggregatedData.merge (addAll X ms0) (mss.map (addAll X)) =
      addAll X (ms0 ++ mss.flatten) := by
  intro mss
  induction mss with
  | nil =>
    intro ms0 _ _
    rw [List.map_nil, List.foldl_nil, List.flatten_nil, List.append_nil]
  | cons ms mss ih =>
    intro ms0 hr0 hrs
    have hrm := hrs ms (List.mem_cons_self ms mss)
    have hG0 : GoodF (addAll X ms0) := goodF_addAll X ms0 (Or.inl hx) hr0
    rw [List.map_cons, List.foldl_cons]
    have hstep : (addAll X ms0).merge (addAll X ms) = addAll X (ms0 ++ ms) := by
      rw [merge_addAll _ X ms hG0 (Or.inl hx) hrm,
        merge_fresh_right _ X hG0 hx, ← addAll_append]
    rw [hstep, ih (ms0 ++ ms) (inRangeList_append ms0 ms hr0 hrm)
      (fun x hx2 => hrs x (List.mem_cons_of_mem _ hx2))]
    rw [List.flatten_cons, List.append_assoc]

theorem mapM_comp_of_some (enc : List (List Nat × List Nat) → List Nat)
    (f : List Nat → Option (List AggregatedData))
    (g : List (List Nat × List Nat) → List AggregatedData) :
    ∀ (l : List (List (List Nat × List Nat))),
    (∀ x ∈ l, f (enc x) = some (g x)) →
    (l.map enc).mapM f = some (l.map g) := by
  intro l
  induction l with
  | nil => intro _; rfl
  | cons x l ih =>
    intro h
    rw [List.map_cons, List.mapM_cons, h x (List.mem_cons_self x l),
      ih (fun y hy => h y (List.mem_cons_of_mem _ hy))]
    rfl

theorem rowsOf_append (g1 g2 : List (List Nat × List Nat)) :
    rowsOf (g1 ++ g2) = rowsOf g1 ++ rowsOf g2 :=
  List.map_append _ _ _

theorem bytesOf_append (g1 g2 : List (List Nat × List Nat)) :
    bytesOf (g1 ++ g2) = bytesOf g1 ++ bytesOf g2 := by
  simp [bytesOf, List.map_append, List.flatten_append]

theorem rowsOf_flatten (lss : List (List (List Nat × List Nat))) :
    rowsOf lss.flatten = (lss.map rowsOf).flatten := by
  unfold rowsOf
  exact List.map_flatten _ _

theorem slotMeas_flatten (hasher : List Nat → Nat) (i : Nat)
    (rss : List (List (List Nat × Int))) :
    slotMeas hasher i rss.flatten = (rss.map (slotMeas hasher i)).flatten := by
  induction rss with
  | nil => rfl
  | cons rs rss ih =>
    rw [List.flatten_cons, slotMeas_append, ih, List.map_cons,
      List.flatten_cons]

theorem flatten_ne_nil (lss : List (List (List Nat × List Nat)))
    (hne : lss ≠ []) (hgne : ∀ g ∈ lss, g ≠ []) : lss.flatten ≠ [] := by
  match lss, hne with
  | g :: rest, _ =>
    rw [List.flatten_cons]
    have hg := hgne g (List.mem_cons_self _ _)
    intro h
    rcases List.append_eq_nil.mp h with ⟨h1, _⟩
    exact hg h1

theorem merge_right_comm (b x1 x2 : AggregatedData) :
    (b.merge x1).merge x2 = (b.merge x2).merge x1 := by
  ext
  · rw [merge_min, merge_min, merge_min, merge_min]
    omega
  · rw [merge_max, merge_max, merge_max, merge_max]
    omega
  · rw [merge_sum, merge_sum, merge_sum, merge_sum]
    ring
  · rw [merge_sample_count, merge_sample_count, merge_sample_count,
      merge_sample_count]
    omega
  · rw [merge_name, merge_name, merge_name, merge_name]

/-! The model hash function is a minimal perfect hash on the station set. -/

theorem checkIds_correct (L : List (List Nat)) :
    ∀ (i0 : Nat), checkIds i0 L = true →
    ∀ j (hj : j < L.length), modelHasher (L.get ⟨j, hj⟩) = i0 + j := by
  induction L with
  | nil =>
    intro i0 _ j hj
    exact absurd hj (by simp)
  | cons s ss ih =>
    intro i0 hch j hj
    simp only [checkIds, Bool.and_eq_true, beq_iff_eq] at hch
    cases j with
    | zero => simpa using hch.1
    | succ j =>
      have hj' : j < ss.length := by
        simp only [List.length_cons] at hj
        omega
      have := ih (i0 + 1) hch.2 j hj'
      simp only [List.get_cons_succ]
      rw [this]
      omega

set_option maxRecDepth 200000 in
set_option maxHeartbeats 4000000 in
theorem checkIds_stations : checkIds 0 ALL_STATIONS = true := by decide

theorem stations_length : ALL_STATIONS.length = STATIONS_IN_DATASET := by decide

theorem station_hash_id (j : Nat) (hj : j < ALL_STATIONS.length) :
    modelHasher (ALL_STATIONS.get ⟨j, hj⟩) = j := by
  have := checkIds_correct ALL_STATIONS 0 checkIds_stations j hj
  simpa using this

theorem stations_nodup : ALL_STATIONS.Nodup := by
  rw [List.nodup_iff_injective_get]
  intro a b hab
  have ha := station_hash_id a.1 a.2
  have hb := station_hash_id b.1 b.2
  apply Fin.ext
  rw [← ha, ← hb]
  simp only [Fin.eta]
  rw [hab]

theorem idxOfKey_lt (k : Nat) :
    ∀ (K : List Nat) (i : Nat), idxOfKey k K = some i → i < K.length := by
  intro K
  induction K with
  | nil => intro i h; exact absurd h (by simp [idxOfKey])
  | cons t ts ih =>
    intro i h
    simp only [idxOfKey] at h
    split_ifs at h
    · simp only [Option.some.injEq] at h
      simp only [List.length_cons]
      omega
    · cases hm : idxOfKey k ts with
      | none => rw [hm] at h; exact absurd h (by simp)
      | some i0 =>
        rw [hm] at h
        simp only [Option.map_some', Option.some.injEq] at h
        have := ih i0 hm
        simp only [List.length_cons]
        omega

theorem station_keys_length : STATION_KEYS.length = STATIONS_IN_DATASET := by
  decide

theorem modelHasher_lt (s : List Nat) :
    modelHasher s < STATIONS_IN_DATASET := by
  unfold modelHasher
  cases h : idxOfKey (encKey s) STATION_KEYS with
  | none => simp [STATIONS_IN_DATASET]
  | some i =>
    have := idxOfKey_lt _ _ i h
    rw [station_keys_length] at this
    exact this

theorem hasherSpec_model : HasherSpec modelHasher := by
  refine ⟨modelHasher_lt, ?_, ?_⟩
  · intro s1 h1 s2 h2 he
    obtain ⟨n1, hn1⟩ := List.mem_iff_get.mp h1
    obtain ⟨n2, hn2⟩ := List.mem_iff_get.mp h2
    have e1 := station_hash_id n1.1 n1.2
    have e2 := station_hash_id n2.1 n2.2
    simp only [Fin.eta] at e1 e2
    rw [hn1] at e1
    rw [hn2] at e2
    have : n1.1 = n2.1 := by rw [← e1, ← e2, he]
    rw [← hn1, ← hn2]
    congr 1
    exact Fin.ext this
  · intro i hi
    have hi' : i < ALL_STATIONS.length := by rw [stations_length]; exact hi
    exact ⟨ALL_STATIONS.get ⟨i, hi'⟩, List.get_mem _ _ _,
      station_hash_id i hi'⟩

/-! Characterisation of init_lookup_structure and the full reduce step. -/

theorem initLookup_spec (hasher : List Nat → Nat) (hh : HasherSpec hasher) :
    ∃ T, initLookupStructure hasher = some T ∧
      T.length = STATIONS_IN_DATASET ∧
      (∀ s ∈ ALL_STATIONS, T[hasher s]? = some { defaultAgg with name := s }) ∧
      (∀ i, i < STATIONS_IN_DATASET →
        ∃ s ∈ ALL_STATIONS, hasher s = i ∧
          T[i]? = some { defaultAgg with name := s }) := by
  obtain ⟨hlt, hinj, hsurj⟩ := hh
  obtain ⟨T, h1, h2, h3, h4⟩ := initLoop_spec hasher ALL_STATIONS
    (List.replicate STATIONS_IN_DATASET defaultAgg) stations_nodup hinj
    (fun s _ => by rw [List.length_replicate]; exact hlt s)
    (fun s _ => by rw [List.getElem?_replicate, if_pos (hlt s)]; rfl)
  have hslot : ∀ s ∈ ALL_STATIONS,
      T[hasher s]? = some { defaultAgg with name := s } := by
    intro s hs
    rw [h3 s hs, List.getElem?_replicate, if_pos (hlt s), Option.map_some']
  refine ⟨T, h1, by rw [h2, List.length_replicate], hslot, ?_⟩
  intro i hi
  obtain ⟨s, hs, he⟩ := hsurj i hi
  exact ⟨s, hs, he, by rw [← he]; exact hslot s hs⟩

theorem chunkTable_spec (hasher : List Nat → Nat) (t0 : List AggregatedData)
    (g : List (List Nat × List Nat))
    (hin : ∀ r ∈ rowsOf g, hasher r.1 < t0.length) :
    applyRows hasher (rowsOf g) t0 = some (chunkTable hasher t0 g) ∧
    (chunkTable hasher t0 g).length = t0.length ∧
    ∀ i, (chunkTable hasher t0 g)[i]? =
      (t0[i]?).map (fun a => addAll a (slotMeas hasher i (rowsOf g))) := by
  obtain ⟨t', h1, h2, h3⟩ := applyRows_slots hasher (rowsOf g) t0 hin
  have he : chunkTable hasher t0 g = t' := by
    rw [chunkTable, h1]
    rfl
  rw [he]
  exact ⟨h1, h2, h3⟩

theorem finalizeCombine_spec (hasher : List Nat → Nat) (nm : Nat → List Nat)
    (hnm : ∀ i, i < STATIONS_IN_DATASET → hasher (nm i) = i)
    (tables : List (List AggregatedData)) (hne : tables ≠ [])
    (htl : ∀ tbl ∈ tables, tbl.length = STATIONS_IN_DATASET)
    (hnames : ∀ tbl ∈ tables, ∀ j (hj : j < tbl.length),
      (tbl.get ⟨j, hj⟩).name = nm j) :
    ∃ C, finalizeCombine hasher tables = some C ∧
      C.length = STATIONS_IN_DATASET ∧
      ∀ j, j < STATIONS_IN_DATASET →
        C[j]? = some (tables.foldl
          (fun acc tbl => acc.merge (tbl.getD j defaultAgg))
          { defaultAgg with name := nm j }) := by
  obtain ⟨C, h1, h2, h3⟩ := finalize_outer_spec hasher nm hnm tables
    (List.replicate STATIONS_IN_DATASET defaultAgg)
    (List.length_replicate _ _) htl hnames
  refine ⟨C, h1, h2, ?_⟩
  intro j hj
  rw [h3 j hj, List.getElem?_replicate, if_pos hj, Option.map_some',
    raw_fold_clean nm j tables hne]

/-- C1: for every grammar-conforming input (a non-empty list of well-formed
rows) and every partition of it into non-empty newline-aligned chunks
(a grouping of the row list), reducing the per-chunk tables with finalize's
merge loop yields exactly the table obtained by processing the whole input
as a single chunk (first conjunct); and the reduce step is invariant under
any permutation of the per-worker tables (second conjunct).  The hash
function is any function with the minimal-perfect-hash properties of the
external ptr_hash crate (HasherSpec). -/
theorem c1_partition_equivalence (hasher : List Nat → Nat)
    (hh : HasherSpec hasher) (lss : List (List (List Nat × List Nat)))
    (hne : lss ≠ []) (hgne : ∀ g ∈ lss, g ≠ [])
    (hok : ∀ g ∈ lss, ∀ p ∈ g, PairOK p) :
    processChunked hasher (lss.map bytesOf) =
      processChunked hasher [bytesOf lss.flatten] ∧
    (∀ t0 ts ts', initLookupStructure hasher = some t0 →
      (lss.map bytesOf).mapM (processFileChunk hasher t0) = some ts →
      ts.Perm ts' →
      finalizeCombine hasher ts' = finalizeCombine hasher ts) := by
  obtain ⟨T0, hT1, hT2, hT3, hT4⟩ := initLookup_spec hasher hh
  obtain ⟨hlt, hinj, hsurj⟩ := hh
  choose nm hnmmem hnmhash hnmslot using hT4
  have hhashnm : ∀ i, i < STATIONS_IN_DATASET →
      hasher (if h : i < STATIONS_IN_DATASET then nm i h else []) = i := by
    intro i hi
    rw [dif_pos hi]
    exact hnmhash i hi
  have hT0slot : ∀ i, i < STATIONS_IN_DATASET → T0[i]? =
      some { defaultAgg with
        name := if h : i < STATIONS_IN_DATASET then nm i h else [] } := by
    intro i hi
    rw [dif_pos hi]
    exact hnmslot i hi
  have hfreshX : ∀ i, freshStats { defaultAgg with
      name := if h : i < STATIONS_IN_DATASET then nm i h else [] } :=
    fun i => ⟨rfl, rfl, rfl, rfl⟩
  have hin : ∀ (g : List (List Nat × List Nat)), ∀ r ∈ rowsOf g,
      hasher r.1 < T0.length := by
    intro g r _
    rw [hT2]
    exact hlt r.1
  have hproc : ∀ g, g ≠ [] → (∀ p ∈ g, PairOK p) →
      processFileChunk hasher T0 (bytesOf g) =
        some (chunkTable hasher T0 g) := by
    intro g hg hokg
    rw [processFileChunk_rows hasher T0 g hg hokg]
    exact (chunkTable_spec hasher T0 g (hin g)).1
  have hmapM : (lss.map bytesOf).mapM (processFileChunk hasher T0) =
      some (lss.map (chunkTable hasher T0)) :=
    mapM_comp_of_some bytesOf _ _ lss
      (fun g hg => hproc g (hgne g hg) (hok g hg))
  have hctlen : ∀ g, (chunkTable hasher T0 g).length = STATIONS_IN_DATASET := by
    intro g
    rw [(chunkTable_spec hasher T0 g (hin g)).2.1, hT2]
  have hslotval : ∀ g j, j < STATIONS_IN_DATASET →
      (chunkTable hasher T0 g)[j]? = some (addAll
        { defaultAgg with
          name := if h : j < STATIONS_IN_DATASET then nm j h else [] }
        (slotMeas hasher j (rowsOf g))) := by
    intro g j hj
    rw [(chunkTable_spec hasher T0 g (hin g)).2.2 j, hT0slot j hj,
      Option.map_some']
  have hgetslot : ∀ g j, j < STATIONS_IN_DATASET →
      (chunkTable hasher T0 g).getD j defaultAgg = addAll
        { defaultAgg with
          name := if h : j < STATIONS_IN_DATASET then nm j h else [] }
        (slotMeas hasher j (rowsOf g)) := by
    intro g j hj
    have hjlen : j < (chunkTable hasher T0 g).length := by
      rw [hctlen g]
      exact hj
    have hv := hslotval g j hj
    rw [List.getElem?_eq_getElem hjlen] at hv
    simp only [Option.some.injEq] at hv
    rw [getD_eq_get _ j hjlen, List.get_eq_getElem, hv]
  have hnamesOne : ∀ g (tbl : List AggregatedData),
      tbl = chunkTable hasher T0 g → ∀ j (hj : j < tbl.length),
      (tbl.get ⟨j, hj⟩).name =
        (if h : j < STATIONS_IN_DATASET then nm j h else []) := by
    intro g tbl htbl j hj
    subst htbl
    have hj' : j < STATIONS_IN_DATASET := by
      rw [← hctlen g]
      exact hj
    have hv := hslotval g j hj'
    rw [List.getElem?_eq_getElem hj] at hv
    simp only [Option.some.injEq] at hv
    rw [List.get_eq_getElem, hv, addAll_name]
  have hnames : ∀ tbl ∈ lss.map (chunkTable hasher T0),
      ∀ j (hj : j < tbl.length), (tbl.get ⟨j, hj⟩).name =
        (if h : j < STATIONS_IN_DATASET then nm j h else []) := by
    intro tbl htbl j hj
    obtain ⟨g, _, hgt⟩ := List.mem_map.mp htbl
    exact hnamesOne g tbl hgt.symm j hj
  have htlen : ∀ tbl ∈ lss.map (chunkTable hasher T0),
      tbl.length = STATIONS_IN_DATASET := by
    intro tbl htbl
    obtain ⟨g, _, hgt⟩ := List.mem_map.mp htbl
    rw [← hgt]
    exact hctlen g
  have hmapne : lss.map (chunkTable hasher T0) ≠ [] := by
    intro h0
    exact hne (List.map_eq_nil.mp h0)
  obtain ⟨Ct, hC11, hC12, hC13⟩ := finalizeCombine_spec hasher _ hhashnm
    (lss.map (chunkTable hasher T0)) hmapne htlen hnames
  have hrange : ∀ j, ∀ ms ∈ lss.map (fun g => slotMeas hasher j (rowsOf g)),
      InRangeList ms := by
    intro j ms hms
    obtain ⟨g, hg, hgm⟩ := List.mem_map.mp hms
    rw [← hgm]
    exact slotMeas_rowsOf_inRange hasher j g (hok g hg)
  have hC1val : ∀ j, j < STATIONS_IN_DATASET → Ct[j]? = some (addAll
      { defaultAgg with
        name := if h : j < STATIONS_IN_DATASET then nm j h else [] }
      (slotMeas hasher j (rowsOf lss.flatten))) := by
    intro j hj
    rw [hC13 j hj]
    congr 1
    rw [List.foldl_map]
    have hfun : (fun (acc : AggregatedData) g => acc.merge
        ((chunkTable hasher T0 g).getD j defaultAgg)) =
        (fun (acc : AggregatedData) g => acc.merge (addAll
          { defaultAgg with
            name := if h : j < STATIONS_IN_DATASET then nm j h else [] }
          (slotMeas hasher j (rowsOf g)))) := by
      funext acc g
      rw [hgetslot g j hj]
    rw [hfun]
    have key : ∀ (ls : List (List (List Nat × List Nat))) (ms0 : List Int),
        InRangeList ms0 →
        (∀ g ∈ ls, InRangeList (slotMeas hasher j (rowsOf g))) →
        List.foldl (fun acc g => acc.merge (addAll
          { defaultAgg with
            name := if h : j < STATIONS_IN_DATASET then nm j h else [] }
          (slotMeas hasher j (rowsOf g))))
          (addAll { defaultAgg with
            name := if h : j < STATIONS_IN_DATASET then nm j h else [] } ms0)
          ls =
        addAll { defaultAgg with
          name := if h : j < STATIONS_IN_DATASET then nm j h else [] }
          (ms0 ++ slotMeas hasher j (rowsOf ls.flatten)) := by
      intro ls
      induction ls with
      | nil =>
        intro ms0 _ _
        rw [List.foldl_nil, List.flatten_nil, rowsOf_nil, slotMeas_nil,
          List.append_nil]
      | cons g ls ih =>
        intro ms0 h0 hall
        have hg := hall g (List.mem_cons_self g ls)
        have hG0 := goodF_addAll _ ms0 (Or.inl (hfreshX j)) h0
        rw [List.foldl_cons]
        rw [merge_addAll _ _ _ hG0 (Or.inl (hfreshX j)) hg,
          merge_fresh_right _ _ hG0 (hfreshX j), ← addAll_append]
        rw [ih (ms0 ++ slotMeas hasher j (rowsOf g))
          (inRangeList_append _ _ h0 hg)
          (fun q hq => hall q (List.mem_cons_of_mem _ hq))]
        rw [List.flatten_cons, rowsOf_append, slotMeas_append,
          List.append_assoc]
    have key0 := key lss [] (fun m hm => absurd hm (List.not_mem_nil m))
      (fun g hg => slotMeas_rowsOf_inRange hasher j g (hok g hg))
    rw [List.nil_append] at key0
    exact key0
  have hflatne := flatten_ne_nil lss hne hgne
  have hokflat : ∀ p ∈ lss.flatten, PairOK p := by
    intro p hp
    obtain ⟨g, hg, hpg⟩ := List.mem_flatten.mp hp
    exact hok g hg p hpg
  have hprocall := hproc lss.flatten hflatne hokflat
  have hsingle_mapM : ([bytesOf lss.flatten] : List (List Nat)).mapM
      (processFileChunk hasher T0) =
      some [chunkTable hasher T0 lss.flatten] := by
    rw [show ([bytesOf lss.flatten] : List (List Nat)) =
      ([lss.flatten].map bytesOf) from rfl]
    exact mapM_comp_of_some bytesOf _ _ [lss.flatten]
      (fun g hg => by
        rcases List.mem_singleton.mp hg with rfl
        exact hprocall)
  obtain ⟨Cs, hC21, hC22, hC23⟩ := finalizeCombine_spec hasher _ hhashnm
    [chunkTable hasher T0 lss.flatten] (by simp)
    (fun tbl htbl => by
      rcases List.mem_singleton.mp htbl with rfl
      exact hctlen _)
    (fun tbl htbl => by
      rcases List.mem_singleton.mp htbl with rfl
      exact hnamesOne lss.flatten _ rfl)
  have hC2val : ∀ j, j < STATIONS_IN_DATASET → Cs[j]? = some (addAll
      { defaultAgg with
        name := if h : j < STATIONS_IN_DATASET then nm j h else [] }
      (slotMeas hasher j (rowsOf lss.flatten))) := by
    intro j hj
    rw [hC23 j hj, List.foldl_cons, List.foldl_nil, hgetslot _ j hj,
      merge_addAll_self _ _ (hfreshX j)
        (slotMeas_rowsOf_inRange hasher j lss.flatten hokflat)]
  have hCeq : Ct = Cs := by
    apply List.ext_getElem?
    intro n
    by_cases hn : n < STATIONS_IN_DATASET
    · rw [hC1val n hn, hC2val n hn]
    · rw [List.getElem?_eq_none (by omega : Ct.length ≤ n),
        List.getElem?_eq_none (by omega : Cs.length ≤ n)]
  constructor
  · simp only [processChunked, hT1, Option.some_bind, hmapM, hsingle_mapM,
      hC11, hC21, hCeq]
  · intro t0 ts ts' ht0 hts hperm
    rw [hT1, Option.some.injEq] at ht0
    subst ht0
    rw [hmapM, Option.some.injEq] at hts
    subst hts
    have hts'len : ∀ tbl ∈ ts', tbl.length = STATIONS_IN_DATASET :=
      fun tbl htb => htlen tbl (hperm.mem_iff.mpr htb)
    have hts'names : ∀ tbl ∈ ts', ∀ j (hj : j < tbl.length),
        (tbl.get ⟨j, hj⟩).name =
          (if h : j < STATIONS_IN_DATASET then nm j h else []) :=
      fun tbl htb => hnames tbl (hperm.mem_iff.mpr htb)
    have hts'ne : ts' ≠ [] := by
      intro h0
      subst h0
      have hl := hperm.length_eq
      simp only [List.length_nil] at hl
      exact hmapne (List.length_eq_zero.mp hl)
    obtain ⟨C3, hC31, hC32, hC33⟩ := finalizeCombine_spec hasher _ hhashnm
      ts' hts'ne hts'len hts'names
    rw [hC31, hC11]
    congr 1
    apply List.ext_getElem?
    intro n
    by_cases hn : n < STATIONS_IN_DATASET
    · rw [hC33 n hn, hC13 n hn]
      congr 1
      haveI : RightCommutative
          (fun (acc : AggregatedData) (tbl : List AggregatedData) =>
            acc.merge (tbl.getD n defaultAgg)) :=
        ⟨fun b a1 a2 => merge_right_comm b (a1.getD n defaultAgg)
          (a2.getD n defaultAgg)⟩
      exact hperm.symm.foldl_eq _
    · rw [List.getElem?_eq_none (by omega : C3.length ≤ n),
        List.getElem?_eq_none (by omega : Ct.length ≤ n)]

/-- Witness for c1_partition_equivalence: a two-row input about station
Abha, split into two one-row chunks. -/
theorem c1_partition_equivalence_witness :
    processChunked modelHasher
      (([[([65, 98, 104, 97], [49, 46, 48])],
         [([65, 98, 104, 97], [50, 46, 48])]] :
        List (List (List Nat × List Nat))).map bytesOf) =
    processChunked modelHasher
      [bytesOf ([[([65, 98, 104, 97], [49, 46, 48])],
         [([65, 98, 104, 97], [50, 46, 48])]] :
        List (List (List Nat × List Nat))).flatten] :=
  (c1_partition_equivalence modelHasher hasherSpec_model
    [[([65, 98, 104, 97], [49, 46, 48])],
     [([65, 98, 104, 97], [50, 46, 48])]]
    (by decide) (by decide) (by decide)).1


theorem mem_slotMeas (hasher : List Nat → Nat) (r : List Nat × Int)
    (rs : List (List Nat × Int)) (h : r ∈ rs) :
    r.2 ∈ slotMeas hasher (hasher r.1) rs := by
  induction rs with
  | nil => exact absurd h (List.not_mem_nil r)
  | cons q rs ih =>
    rw [slotMeas_cons]
    rcases List.mem_cons.mp h with heq | hm
    · rw [heq, if_pos rfl]
      exact List.mem_cons_self _ _
    · by_cases hq : hasher q.1 = hasher r.1
      · rw [if_pos hq]
        exact List.mem_cons_of_mem _ (ih hm)
      · rw [if_neg hq]
        exact ih hm

theorem mem_rowsOf (p : List Nat × List Nat) (prs : List (List Nat × List Nat))
    (hp : p ∈ prs) : (p.1, specDecimalValue p.2) ∈ rowsOf prs :=
  List.mem_map_of_mem _ hp

theorem insertSorted_perm (x : AggregatedData) (l : List AggregatedData) :
    (insertSorted x l).Perm (x :: l) := by
  induction l with
  | nil => exact List.Perm.refl _
  | cons y ys ih =>
    rw [insertSorted]
    by_cases h : lexLe x.name y.name
    · rw [if_pos h]
    · rw [if_neg h]
      exact List.Perm.trans (List.Perm.cons y ih) (List.Perm.swap x y ys)

theorem sortByName_perm (t : List AggregatedData) : (sortByName t).Perm t := by
  induction t with
  | nil => exact List.Perm.refl _
  | cons x xs ih =>
    have h1 : sortByName (x :: xs) = insertSorted x (sortByName xs) := rfl
    rw [h1]
    exact List.Perm.trans (insertSorted_perm x _) (List.Perm.cons x ih)

theorem processSingle_spec (hasher : List Nat → Nat) (hh : HasherSpec hasher)
    (prs : List (List Nat × List Nat)) (hne : prs ≠ [])
    (hok : ∀ p ∈ prs, PairOK p) :
    ∃ C, processChunked hasher [bytesOf prs] = some C ∧
      C.length = STATIONS_IN_DATASET ∧
      (∀ s ∈ ALL_STATIONS, C[hasher s]? = some (addAll
        { defaultAgg with name := s }
        (slotMeas hasher (hasher s) (rowsOf prs)))) ∧
      (∀ j, j < STATIONS_IN_DATASET → ∃ s, s ∈ ALL_STATIONS ∧ hasher s = j ∧
        C[j]? = some (addAll { defaultAgg with name := s }
          (slotMeas hasher j (rowsOf prs)))) := by
  obtain ⟨T0, hT1, hT2, hT3, hT4⟩ := initLookup_spec hasher hh
  obtain ⟨hlt, hinj, hsurj⟩ := hh
  choose nm hnmmem hnmhash hnmslot using hT4
  have hhashnm : ∀ i, i < STATIONS_IN_DATASET →
      hasher (if h : i < STATIONS_IN_DATASET then nm i h else []) = i := by
    intro i hi
    rw [dif_pos hi]
    exact hnmhash i hi
  have hT0slot : ∀ i, i < STATIONS_IN_DATASET → T0[i]? =
      some { defaultAgg with
        name := if h : i < STATIONS_IN_DATASET then nm i h else [] } := by
    intro i hi
    rw [dif_pos hi]
    exact hnmslot i hi
  have hin : ∀ r ∈ rowsOf prs, hasher r.1 < T0.length := by
    intro r _
    rw [hT2]
    exact hlt r.1
  have hproc : processFileChunk hasher T0 (bytesOf prs) =
      some (chunkTable hasher T0 prs) := by
    rw [processFileChunk_rows hasher T0 prs hne hok]
    exact (chunkTable_spec hasher T0 prs hin).1
  have hctlen : (chunkTable hasher T0 prs).length = STATIONS_IN_DATASET := by
    rw [(chunkTable_spec hasher T0 prs hin).2.1, hT2]
  have hslotval : ∀ j, j < STATIONS_IN_DATASET →
      (chunkTable hasher T0 prs)[j]? = some (addAll
        { defaultAgg with
          name := if h : j < STATIONS_IN_DATASET then nm j h else [] }
        (slotMeas hasher j (rowsOf prs))) := by
    intro j hj
    rw [(chunkTable_spec hasher T0 prs hin).2.2 j, hT0slot j hj,
      Option.map_some']
  have hgetslot : ∀ j, j < STATIONS_IN_DATASET →
      (chunkTable hasher T0 prs).getD j defaultAgg = addAll
        { defaultAgg with
          name := if h : j < STATIONS_IN_DATASET then nm j h else [] }
        (slotMeas hasher j (rowsOf prs)) := by
    intro j hj
    have hjlen : j < (chunkTable hasher T0 prs).length := by
      rw [hctlen]
      exact hj
    have hv := hslotval j hj
    rw [List.getElem?_eq_getElem hjlen] at hv
    simp only [Option.some.injEq] at hv
    rw [getD_eq_get _ j hjlen, List.get_eq_getElem, hv]
  have hnamesOne : ∀ (tbl : List AggregatedData),
      tbl = chunkTable hasher T0 prs → ∀ j (hj : j < tbl.length),
      (tbl.get ⟨j, hj⟩).name =
        (if h : j < STATIONS_IN_DATASET then nm j h else []) := by
    intro tbl htbl j hj
    subst htbl
    have hj2 : j < STATIONS_IN_DATASET := by
      rw [← hctlen]
      exact hj
    have hv := hslotval j hj2
    rw [List.getElem?_eq_getElem hj] at hv
    simp only [Option.some.injEq] at hv
    rw [List.get_eq_getElem, hv, addAll_name]
  have hmapM : ([bytesOf prs] : List (List Nat)).mapM
      (processFileChunk hasher T0) = some [chunkTable hasher T0 prs] := by
    rw [show ([bytesOf prs] : List (List Nat)) = ([prs].map bytesOf) from rfl]
    exact mapM_comp_of_some bytesOf _ _ [prs]
      (fun g hg => by
        rcases List.mem_singleton.mp hg with rfl
        exact hproc)
  obtain ⟨C, hC1, hC2, hC3⟩ := finalizeCombine_spec hasher _ hhashnm
    [chunkTable hasher T0 prs] (by simp)
    (fun tbl htbl => by
      rcases List.mem_singleton.mp htbl with rfl
      exact hctlen)
    (fun tbl htbl => by
      rcases List.mem_singleton.mp htbl with rfl
      exact hnamesOne _ rfl)
  have hCval : ∀ j, j < STATIONS_IN_DATASET → C[j]? = some (addAll
      { defaultAgg with
        name := if h : j < STATIONS_IN_DATASET then nm j h else [] }
      (slotMeas hasher j (rowsOf prs))) := by
    intro j hj
    rw [hC3 j hj, List.foldl_cons, List.foldl_nil, hgetslot j hj,
      merge_addAll_self _ _ ⟨rfl, rfl, rfl, rfl⟩
        (slotMeas_rowsOf_inRange hasher j prs hok)]
  have hChunked : processChunked hasher [bytesOf prs] = some C := by
    simp only [processChunked, hT1, Option.some_bind, hmapM, hC1]
  have hclause4 : ∀ j, j < STATIONS_IN_DATASET →
      ∃ s, s ∈ ALL_STATIONS ∧ hasher s = j ∧
        C[j]? = some (addAll { defaultAgg with name := s }
          (slotMeas hasher j (rowsOf prs))) := by
    intro j hj
    refine ⟨nm j hj, hnmmem j hj, hnmhash j hj, ?_⟩
    have hv := hCval j hj
    rw [dif_pos hj] at hv
    exact hv
  refine ⟨C, hChunked, hC2, ?_, hclause4⟩
  intro s hs
  obtain ⟨t, ht1, ht2, ht3⟩ := hclause4 (hasher s) (hlt s)
  have hts : t = s := hinj t ht1 s hs (by rw [ht2])
  rw [hts] at ht3
  exact ht3

theorem processFileChunk_noAbort (hasher : List Nat → Nat)
    (hh : HasherSpec hasher) (prs : List (List Nat × List Nat))
    (hne : prs ≠ []) (hok : ∀ p ∈ prs, PairOK p) :
    ∃ T0 t, initLookupStructure hasher = some T0 ∧
      processFileChunk hasher T0 (bytesOf prs) = some t ∧
      t.length = STATIONS_IN_DATASET ∧
      (∀ j, j < STATIONS_IN_DATASET →
        ∃ s, s ∈ ALL_STATIONS ∧ hasher s = j ∧
          t[j]? = some (addAll { defaultAgg with name := s }
            (slotMeas hasher j (rowsOf prs)))) ∧
      (∀ p ∈ prs, ∃ a, t[hasher p.1]? = some a ∧ 1 ≤ a.sample_count) := by
  obtain ⟨T0, hT1, hT2, hT3, hT4⟩ := initLookup_spec hasher hh
  obtain ⟨hlt, hinj, hsurj⟩ := hh
  have hin : ∀ r ∈ rowsOf prs, hasher r.1 < T0.length := by
    intro r _
    rw [hT2]
    exact hlt r.1
  have hproc : processFileChunk hasher T0 (bytesOf prs) =
      some (chunkTable hasher T0 prs) := by
    rw [processFileChunk_rows hasher T0 prs hne hok]
    exact (chunkTable_spec hasher T0 prs hin).1
  have hctlen : (chunkTable hasher T0 prs).length = STATIONS_IN_DATASET := by
    rw [(chunkTable_spec hasher T0 prs hin).2.1, hT2]
  have hslots : ∀ j, j < STATIONS_IN_DATASET →
      ∃ s, s ∈ ALL_STATIONS ∧ hasher s = j ∧
        (chunkTable hasher T0 prs)[j]? = some (addAll
          { defaultAgg with name := s } (slotMeas hasher j (rowsOf prs))) := by
    intro j hj
    obtain ⟨s, hs, hhash, hT0j⟩ := hT4 j hj
    refine ⟨s, hs, hhash, ?_⟩
    rw [(chunkTable_spec hasher T0 prs hin).2.2 j, hT0j, Option.map_some']
  refine ⟨T0, chunkTable hasher T0 prs, hT1, hproc, hctlen, hslots, ?_⟩
  intro p hp
  obtain ⟨s, hs, hhash, hslot⟩ := hslots (hasher p.1) (hlt p.1)
  have hv : specDecimalValue p.2 ∈
      slotMeas hasher (hasher p.1) (rowsOf prs) :=
    mem_slotMeas hasher (p.1, specDecimalValue p.2) (rowsOf prs)
      (mem_rowsOf p prs hp)
  refine ⟨addAll { defaultAgg with name := s }
    (slotMeas hasher (hasher p.1) (rowsOf prs)), hslot, ?_⟩
  rw [addAll_sample_count]
  have hpos : 0 < (slotMeas hasher (hasher p.1) (rowsOf prs)).length :=
    List.length_pos.mpr (List.ne_nil_of_mem hv)
  have hz : ({ defaultAgg with name := s } : AggregatedData).sample_count
      = 0 := rfl
  omega

/-- C8: the claim that a row with a station name outside the 413-station set
causes a fatal abort is false; the hot loop never validates the station
name.  Amended: for every non-empty list of well-formed rows — station
names arbitrary byte strings without separator bytes, known or unknown —
and every hash function with the ptr_hash properties, the lookup structure
is built, the chunk is processed without any abort, every slot j of the
resulting table carries the name of a known station hashing to j together
with the aggregate of all rows hashing to j, and every row (in particular
one with an unknown station name) is silently aggregated: the slot its
station hashes to has sample_count at least 1. -/
theorem c8_unknown_station_aggregated (hasher : List Nat → Nat)
    (hh : HasherSpec hasher) (prs : List (List Nat × List Nat))
    (hne : prs ≠ []) (hok : ∀ p ∈ prs, PairOK p) :
    ∃ T0 t, initLookupStructure hasher = some T0 ∧
      processFileChunk hasher T0 (bytesOf prs) = some t ∧
      t.length = STATIONS_IN_DATASET ∧
      (∀ j, j < STATIONS_IN_DATASET →
        ∃ s, s ∈ ALL_STATIONS ∧ hasher s = j ∧
          t[j]? = some (addAll { defaultAgg with name := s }
            (slotMeas hasher j (rowsOf prs)))) ∧
      (∀ p ∈ prs, ∃ a, t[hasher p.1]? = some a ∧ 1 ≤ a.sample_count) :=
  processFileChunk_noAbort hasher hh prs hne hok

/-- Witness for c8_unknown_station_aggregated: a single-row input with a
known station. -/
theorem c8_unknown_station_aggregated_witness :
    ∃ T0 t, initLookupStructure modelHasher = some T0 ∧
      processFileChunk modelHasher T0
        (bytesOf [([88, 105, 39, 97, 110], [50, 46, 52])]) = some t ∧
      t.length = STATIONS_IN_DATASET ∧
      (∀ j, j < STATIONS_IN_DATASET →
        ∃ s, s ∈ ALL_STATIONS ∧ modelHasher s = j ∧
          t[j]? = some (addAll { defaultAgg with name := s }
            (slotMeas modelHasher j
              (rowsOf [([88, 105, 39, 97, 110], [50, 46, 52])])))) ∧
      (∀ p ∈ ([([88, 105, 39, 97, 110], [50, 46, 52])] :
          List (List Nat × List Nat)),
        ∃ a, t[modelHasher p.1]? = some a ∧ 1 ≤ a.sample_count) :=
  c8_unknown_station_aggregated modelHasher hasherSpec_model
    [([88, 105, 39, 97, 110], [50, 46, 52])] (by decide) (by decide)

/-- Counterexample to C8: the single-row input Xyzzy;1.0 has a station name
outside the 413-station set, yet the chunk is processed without any abort
and the row is silently aggregated into the slot the hash assigns to the
unknown name — a slot carrying the name of a different, known station. -/
theorem c8_counterexample :
    ([88, 121, 122, 122, 121] : List Nat) ∉ ALL_STATIONS ∧
    ∃ T0 t a, initLookupStructure modelHasher = some T0 ∧
      processFileChunk modelHasher T0
        (bytesOf [([88, 121, 122, 122, 121], [49, 46, 48])]) = some t ∧
      t[modelHasher [88, 121, 122, 122, 121]]? = some a ∧
      a.sample_count = 1 ∧ a.name ∈ ALL_STATIONS ∧
      a.name ≠ [88, 121, 122, 122, 121] := by
  refine ⟨by decide, ?_⟩
  obtain ⟨T0, t, h1, h2, hlen, h3, h4⟩ := processFileChunk_noAbort modelHasher
    hasherSpec_model [([88, 121, 122, 122, 121], [49, 46, 48])]
    (by decide) (by decide)
  obtain ⟨s, hs, hhash, hslot⟩ := h3 (modelHasher [88, 121, 122, 122, 121])
    (modelHasher_lt _)
  have hmeas : slotMeas modelHasher (modelHasher [88, 121, 122, 122, 121])
      (rowsOf [([88, 121, 122, 122, 121], [49, 46, 48])]) =
      [specDecimalValue [49, 46, 48]] := by
    rw [rowsOf_cons, rowsOf_nil, slotMeas_cons, if_pos rfl, slotMeas_nil]
  rw [hmeas] at hslot
  refine ⟨T0, t, addAll { defaultAgg with name := s }
    [specDecimalValue [49, 46, 48]], h1, h2, hslot, rfl, ?_, ?_⟩
  · rw [addAll_name]
    exact hs
  · rw [addAll_name]
    intro h0
    have h02 : s = [88, 121, 122, 122, 121] := h0
    rw [h02] at hs
    exact (by decide : ([88, 121, 122, 122, 121] : List Nat) ∉ ALL_STATIONS) hs

/-- Counterexample to C6: the grammar-conforming single-line input Abha;0.0
produces a printed table that contains the station Abidjan with
sample_count 0, so it is false that every station in the result has
count at least 1 (the zero-count sentinel entries also make the claimed
mean bound meaningless for them, since avg divides by count * 10 = 0). -/
theorem c6_counterexample :
    ∃ out a, processSingleThreadedTable modelHasher
        (bytesOf [([65, 98, 104, 97], [48, 46, 48])]) = some out ∧
      a ∈ out ∧ a.name = [65, 98, 105, 100, 106, 97, 110] ∧
      a.sample_count = 0 := by
  obtain ⟨C, hC, hlen, hsta, hall⟩ := processSingle_spec modelHasher
    hasherSpec_model [([65, 98, 104, 97], [48, 46, 48])] (by decide) (by decide)
  have hslot := hsta [65, 98, 105, 100, 106, 97, 110] (by decide)
  have hempty : slotMeas modelHasher
      (modelHasher [65, 98, 105, 100, 106, 97, 110])
      (rowsOf [([65, 98, 104, 97], [48, 46, 48])]) = [] := by decide
  rw [hempty, addAll_nil] at hslot
  refine ⟨sortByName C,
    { defaultAgg with name := [65, 98, 105, 100, 106, 97, 110] },
    ?_, ?_, rfl, rfl⟩
  · rw [processSingleThreadedTable, hC]
    rfl
  · exact (sortByName_perm C).mem_iff.mpr (mem_of_getElem? C _ _ hslot)

/-- C6: the per-update invariants hold, but the result clause of the claim
is false as stated (see the counterexample) and holds in the amended form:
adding an in-range datapoint to a well-formed aggregate keeps min at most
max; merging with an aggregate holding in-range ordered bounds keeps min at
most max; an aggregate with the stats of a fold of datapoints over a fresh
aggregate has positive count iff at least one datapoint was added; and for
every grammar-conforming input, every station OCCURRING IN THE INPUT has,
at its hash slot of the combined table, an aggregate with count at least 1,
min at most max, and min * count ≤ sum ≤ max * count (so its mean lies
between min and max). -/
theorem c6_invariants (hasher : List Nat → Nat) (hh : HasherSpec hasher) :
    (∀ a m, GoodF a → -999 ≤ m → m ≤ 999 →
      (a.add_datapoint m).min ≤ (a.add_datapoint m).max) ∧
    (∀ a b, GoodF a → -999 ≤ b.min → b.min ≤ b.max → b.max ≤ 999 →
      (a.merge b).min ≤ (a.merge b).max) ∧
    (∀ a (ms : List Int), statsOf a = statsOf (addAll defaultAgg ms) →
      (0 < a.sample_count ↔ ms ≠ [])) ∧
    (∀ prs : List (List Nat × List Nat), prs ≠ [] → (∀ p ∈ prs, PairOK p) →
      ∃ C, processChunked hasher [bytesOf prs] = some C ∧
        ∀ p ∈ prs, ∃ a, C[hasher p.1]? = some a ∧
          1 ≤ a.sample_count ∧ a.min ≤ a.max ∧
          a.min * (a.sample_count : Int) ≤ a.sum ∧
          a.sum ≤ a.max * (a.sample_count : Int)) := by
  refine ⟨?_, ?_, ?_, ?_⟩
  · intro a m hG h1 h2
    rw [add_datapoint_min a m hG h1 h2, add_datapoint_max a m hG h1 h2]
    exact le_trans (min_le_right _ _) (le_max_right _ _)
  · intro a b _ hb1 hb2 _
    rw [merge_min, merge_max]
    exact le_trans (le_trans (min_le_right _ _) hb2) (le_max_right _ _)
  · intro a ms h
    have h4 := (statsOf_fields _ _ h).2.2.2
    rw [addAll_sample_count] at h4
    have hz : defaultAgg.sample_count = 0 := rfl
    rw [hz] at h4
    constructor
    · intro hpos h0
      subst h0
      simp only [List.length_nil] at h4
      omega
    · intro hne0
      have hp : 0 < ms.length := List.length_pos.mpr hne0
      omega
  · intro prs hne hok
    obtain ⟨C, hC, hlen, hsta, hall⟩ := processSingle_spec hasher hh prs hne hok
    obtain ⟨hlt, hinj, hsurj⟩ := hh
    refine ⟨C, hC, ?_⟩
    intro p hp
    obtain ⟨s, hs, hhash, hslot⟩ := hall (hasher p.1) (hlt p.1)
    have hv : specDecimalValue p.2 ∈
        slotMeas hasher (hasher p.1) (rowsOf prs) :=
      mem_slotMeas hasher (p.1, specDecimalValue p.2) (rowsOf prs)
        (mem_rowsOf p prs hp)
    have hr : InRangeList (slotMeas hasher (hasher p.1) (rowsOf prs)) :=
      slotMeas_rowsOf_inRange hasher _ prs hok
    cases hmsc : slotMeas hasher (hasher p.1) (rowsOf prs) with
    | nil =>
      rw [hmsc] at hv
      exact absurd hv (List.not_mem_nil _)
    | cons m ms =>
      rw [hmsc] at hr hslot
      have hinv : StatsInv (addAll { defaultAgg with name := s } (m :: ms)) :=
        statsInv_addAll _ m ms ⟨rfl, rfl, rfl, rfl⟩
          (hr m (List.mem_cons_self m ms))
          (fun y hy => hr y (List.mem_cons_of_mem m hy))
      obtain ⟨i1, i2, i3, i4, i5, i6⟩ := hinv
      exact ⟨addAll { defaultAgg with name := s } (m :: ms),
        hslot, i4, i2, i5, i6⟩

/-- Witness for c6_invariants: the model hash function, a concrete first
datapoint, and the single-line input Abha;5.7. -/
theorem c6_invariants_witness :
    (defaultAgg.add_datapoint 57).min ≤ (defaultAgg.add_datapoint 57).max ∧
    (processChunked modelHasher
      [bytesOf [([65, 98, 104, 97], [53, 46, 55])]]).isSome = true := by
  obtain ⟨ha, hb, hc, hd⟩ := c6_invariants modelHasher hasherSpec_model
  refine ⟨ha defaultAgg 57 (Or.inl ⟨rfl, rfl, rfl, rfl⟩)
    (by decide) (by decide), ?_⟩
  obtain ⟨C, hC, h2⟩ := hd [([65, 98, 104, 97], [53, 46, 55])]
    (by decide) (by decide)
  rw [hC]
  rfl

/-- C2: the pipeline value behind the single printed line for the input
Abha;0.0 is a table of all 413 pre-seeded stations, not only the one
station of the input: it has length 413, its Abha entry carries the
aggregate (min 0, max 0, sum 0, count 1) as claimed, but entries for
stations absent from the input are also present, e.g. an Abéché entry
with the sentinel stats of a default aggregate and sample_count 0. -/
theorem c2_single_line_output :
    ∃ out aIn aOut, processSingleThreadedTable modelHasher
        (bytesOf [([65, 98, 104, 97], [48, 46, 48])]) = some out ∧
      out.length = STATIONS_IN_DATASET ∧
      aIn ∈ out ∧ aIn.name = [65, 98, 104, 97] ∧
      statsOf aIn = (0, 0, 0, 1) ∧
      aOut ∈ out ∧ aOut.name = [65, 98, 195, 169, 99, 104, 195, 169] ∧
      statsOf aOut = (32767, -32768, 0, 0) := by
  obtain ⟨C, hC, hlen, hsta, hall⟩ := processSingle_spec modelHasher
    hasherSpec_model [([65, 98, 104, 97], [48, 46, 48])] (by decide) (by decide)
  have hAbha := hsta [65, 98, 104, 97] (by decide)
  have habhaslot : slotMeas modelHasher (modelHasher [65, 98, 104, 97])
      (rowsOf [([65, 98, 104, 97], [48, 46, 48])]) =
      [specDecimalValue [48, 46, 48]] := by
    rw [rowsOf_cons, rowsOf_nil, slotMeas_cons, if_pos rfl, slotMeas_nil]
  rw [habhaslot] at hAbha
  have hAb := hsta [65, 98, 195, 169, 99, 104, 195, 169] (by decide)
  have habslot : slotMeas modelHasher
      (modelHasher [65, 98, 195, 169, 99, 104, 195, 169])
      (rowsOf [([65, 98, 104, 97], [48, 46, 48])]) = [] := by decide
  rw [habslot, addAll_nil] at hAb
  refine ⟨sortByName C,
    addAll { defaultAgg with name := [65, 98, 104, 97] }
      [specDecimalValue [48, 46, 48]],
    { defaultAgg with name := [65, 98, 195, 169, 99, 104, 195, 169] },
    ?_, ?_, ?_, ?_, by decide, ?_, rfl, rfl⟩
  · rw [processSingleThreadedTable, hC]
    rfl
  · rw [(sortByName_perm C).length_eq]
    exact hlen
  · exact (sortByName_perm C).mem_iff.mpr (mem_of_getElem? C _ _ hAbha)
  · rw [addAll_name]
  · exact (sortByName_perm C).mem_iff.mpr (mem_of_getElem? C _ _ hAb)

end OneBrc
